import Mathlib

/-!
Verification development for the keboola/component-meta extractor.

The Python sources under src/ are shallowly embedded below:
  * `output_parser.py` (class OutputParser) — the JSON flattening engine,
  * `page_loader.py` (class PageLoader) — pagination / error recovery / async polling,
  * `component.py` (Component._get_primary_key) — primary-key selection.

JSON values are modelled by the inductive `JsonV`; Python dicts are ordered
association lists written only through `dictSet` (which, like Python dict
assignment, replaces in place and otherwise appends), so key lookup by first
match agrees with Python lookup.  Python exceptions are modelled with
`Except String`; code paths on which the Python code would raise return
`.error`.  The page loader used for pagination is abstracted as an oracle
`String → JsonV` (a load that raises simply aborts the whole parse and
produces no mapping, so it is irrelevant to properties of returned mappings).
Unbounded recursion (pagination chains plus nested-table recursion) is made
total with a fuel parameter; fuel exhaustion yields `.error`, and all
invariants are proved for every fuel.
-/

namespace MetaSpec

/-- JSON values as produced by the Facebook Graph API client
(`json` payloads handed to OutputParser.parse_data). Numbers are modelled
as integers, which covers every value the code inspects structurally. -/
inductive JsonV where
  | null
  | bool (b : Bool)
  | num (n : Int)
  | str (s : String)
  | arr (elems : List JsonV)
  | obj (fields : List (String × JsonV))
deriving Repr

/-- A flat output row: Python dict from column name to JSON value. -/
abbrev Row := List (String × JsonV)

/-- The mapping `table name -> list of rows` accumulated by parse_data. -/
abbrev Result := List (String × List Row)

/-- Python truthiness of a JSON value (`bool(x)`). -/
def pyTruthy : JsonV → Bool
  | .null => false
  | .bool b => b
  | .num n => n != 0
  | .str s => s != ""
  | .arr xs => !xs.isEmpty
  | .obj fs => !fs.isEmpty

/-- Python falsiness (`not x`). -/
def pyFalsy (v : JsonV) : Bool := !pyTruthy v

/-- Python falsiness of a `d.get(k)` result (None when the key is absent). -/
def pyFalsyOpt : Option JsonV → Bool
  | none => true
  | some v => pyFalsy v

/-- Python `a or b` on JSON values. -/
def pyOr (a b : JsonV) : JsonV := if pyTruthy a then a else b

/-- `d.get(k)` on an ordered dict: first matching key. -/
def objGet (fs : List (String × JsonV)) (k : String) : Option JsonV :=
  (fs.find? (fun kv => kv.1 == k)).map (fun kv => kv.2)

/-- `k in d` for a dict. -/
def hasKey (fs : List (String × JsonV)) (k : String) : Bool :=
  fs.any (fun kv => kv.1 == k)

/-- Python dict assignment `d[k] = v`: replaces the value in place if the key
exists (keeping its insertion position), else appends the new pair. -/
def dictSet (d : List (String × JsonV)) (k : String) (v : JsonV) :
    List (String × JsonV) :=
  if d.any (fun kv => kv.1 == k) then
    d.map (fun kv => if kv.1 == k then (k, v) else kv)
  else d ++ [(k, v)]

/-- Python `d.update(u)`: assign every pair of `u` into `d` in order. -/
def dictUpdateMany (d u : List (String × JsonV)) : List (String × JsonV) :=
  u.foldl (fun acc kv => dictSet acc kv.1 kv.2) d

/-- Equality as Python `==` applies it in this code base: the compared values
are scalars (strings, numbers, booleans, None) — pagination URLs and literal
string constants. Containers are never equal to scalars; container-container
comparisons do not occur on the compared positions. -/
def pyEqPrim : JsonV → JsonV → Bool
  | .null, .null => true
  | .bool a, .bool b => a == b
  | .num a, .num b => a == b
  | .str a, .str b => a == b
  | _, _ => false

/-- `v == "lit"` for a string literal. -/
def jsonEqStr (v : JsonV) (s : String) : Bool :=
  match v with
  | .str a => a == s
  | _ => false

/-- `v == n` for an integer literal. -/
def jsonEqNum (v : JsonV) (n : Int) : Bool :=
  match v with
  | .num a => a == n
  | _ => false

/-- `v is None`. -/
def isNull : JsonV → Bool
  | .null => true
  | _ => false

/-- `v == ""` (only the empty string compares equal to `""`). -/
def isEmptyStr : JsonV → Bool
  | .str s => s == ""
  | _ => false

/-- Whether a value is a Python list. -/
def isArr : JsonV → Bool
  | .arr _ => true
  | _ => false

/-- `pat` occurs as a contiguous substring at the front of `cs`. -/
def listPrefixEq : List Char → List Char → Bool
  | [], _ => true
  | _ :: _, [] => false
  | a :: as, b :: bs => a == b && listPrefixEq as bs

/-- Helper for `strContains`: does `pat` occur in the haystack suffix. -/
def strContainsAux (pat : List Char) : List Char → Bool
  | [] => listPrefixEq pat []
  | c :: rest => listPrefixEq pat (c :: rest) || strContainsAux pat rest

/-- Python `pat in hay` on strings (substring containment). -/
def strContains (hay pat : String) : Bool := strContainsAux pat.data hay.data

/-- Python `s.startswith(pre)`. -/
def strStartsWith (s pre : String) : Bool := listPrefixEq pre.data s.data

/-- Python `s.endswith(suf)`. -/
def strEndsWith (s suf : String) : Bool :=
  listPrefixEq suf.data.reverse s.data.reverse

/-- Python `s.lower()` (ASCII case folding, which covers every phrase the
code searches for). -/
def pyLower (s : String) : String := String.mk (s.data.map Char.toLower)

/-- Helper for `pySplitDot`: split a character list on the dot character. -/
def splitOnDotAux : List Char → List (List Char)
  | [] => [[]]
  | c :: rest =>
      let gs := splitOnDotAux rest
      if c == Char.ofNat 46 then [] :: gs
      else
        match gs with
        | [] => [[c]]
        | g :: gs2 => (c :: g) :: gs2

/-- Python `s.split(".")`: always non-empty, preserves empty segments. -/
def pySplitDot (s : String) : List String := (splitOnDotAux s.data).map String.mk

/-- Python `s.isdigit()` for ASCII digits. -/
def strAllDigits (s : String) : Bool := !s.data.isEmpty && s.data.all Char.isDigit

/-- `int(s)` for an all-digit string. -/
def strToNat (s : String) : Nat :=
  s.data.foldl (fun acc c => acc * 10 + (c.toNat - 48)) 0

/-- Python iteration `for x in v`: lists yield elements, strings yield
one-character strings, dicts yield their keys; other values raise TypeError. -/
def pyIter : JsonV → Except String (List JsonV)
  | .arr xs => .ok xs
  | .str s => .ok (s.data.map (fun c => .str (String.singleton c)))
  | .obj fs => .ok (fs.map (fun kv => .str kv.1))
  | _ => .error "TypeError: object is not iterable"

/-- Escape for json.dumps string rendering. -/
def jsonEscape (s : String) : String :=
  s.data.foldl
    (fun acc c =>
      acc ++ (if c == Char.ofNat 34 then "\\" ++ String.singleton (Char.ofNat 34)
              else if c == Char.ofNat 92 then "\\\\"
              else String.singleton c)) ""

mutual
/-- `json.dumps(v)` with the default separators. -/
def jsonDumps : JsonV → String
  | .null => "null"
  | .bool true => "true"
  | .bool false => "false"
  | .num n => toString n
  | .str s => String.singleton (Char.ofNat 34) ++ jsonEscape s ++ String.singleton (Char.ofNat 34)
  | .arr xs => "[" ++ jsonDumpsList xs ++ "]"
  | .obj fs => "\x7b" ++ jsonDumpsFields fs ++ "\x7d"

/-- Comma-joined dumps of list elements. -/
def jsonDumpsList : List JsonV → String
  | [] => ""
  | [x] => jsonDumps x
  | x :: y :: rest => jsonDumps x ++ ", " ++ jsonDumpsList (y :: rest)

/-- Comma-joined dumps of object entries. -/
def jsonDumpsFields : List (String × JsonV) → String
  | [] => ""
  | [kv] => String.singleton (Char.ofNat 34) ++ jsonEscape kv.1 ++ String.singleton (Char.ofNat 34) ++ ": " ++ jsonDumps kv.2
  | kv :: kw :: rest =>
      String.singleton (Char.ofNat 34) ++ jsonEscape kv.1 ++ String.singleton (Char.ofNat 34) ++ ": " ++ jsonDumps kv.2
      ++ ", " ++ jsonDumpsFields (kw :: rest)
end

/-- A single quote character, used by the Python `str()` rendering of dicts. -/
def sq : String := String.singleton (Char.ofNat 39)

mutual
/-- Python `repr(v)` of a JSON value (used inside container renderings). -/
def pyRepr : JsonV → String
  | .null => "None"
  | .bool true => "True"
  | .bool false => "False"
  | .num n => toString n
  | .str s => sq ++ s ++ sq
  | .arr xs => "[" ++ pyReprList xs ++ "]"
  | .obj fs => "\x7b" ++ pyReprFields fs ++ "\x7d"

/-- Comma-joined reprs of list elements. -/
def pyReprList : List JsonV → String
  | [] => ""
  | [x] => pyRepr x
  | x :: y :: rest => pyRepr x ++ ", " ++ pyReprList (y :: rest)

/-- Comma-joined reprs of dict entries. -/
def pyReprFields : List (String × JsonV) → String
  | [] => ""
  | [kv] => sq ++ kv.1 ++ sq ++ ": " ++ pyRepr kv.2
  | kv :: kw :: rest => sq ++ kv.1 ++ sq ++ ": " ++ pyRepr kv.2 ++ ", " ++ pyReprFields (kw :: rest)
end

/-- Python `str(v)`: the string itself for strings, repr otherwise. -/
def pyStr : JsonV → String
  | .str s => s
  | v => pyRepr v

/-! ## OutputParser (src/output_parser.py) -/

/-- The `row_config.query` object: attributes read by the parser. `none`
models a missing attribute (`hasattr` is false, `getattr` takes its
default). -/
structure Query where
  path : Option String
  fields : Option String
  parameters : Option String

/-- The `row_config` object: `name`, the optional `type` attribute and the
query. -/
structure RowConfig where
  name : String
  rcType : Option String
  query : Query

/-- Parser context: the constructor arguments of OutputParser. `loader`
abstracts `page_loader.load_page_from_url` (a pagination load that raises
aborts the whole parse, producing no mapping). -/
structure ParserCtx where
  loader : String → JsonV
  pageId : String
  rowConfig : RowConfig

/-- OutputParser.ADS_ACTION_STATS_ROW. -/
def ADS_ACTION_STATS_ROW : List String :=
  ["actions", "properties", "conversion_values", "action_values",
   "canvas_component_avg_pct_view", "cost_per_10_sec_video_view",
   "cost_per_action_type", "cost_per_unique_action_type", "unique_actions",
   "video_10_sec_watched_actions", "video_15_sec_watched_actions",
   "video_30_sec_watched_actions", "video_avg_pct_watched_actions",
   "video_avg_percent_watched_actions", "video_avg_sec_watched_actions",
   "video_avg_time_watched_actions", "video_complete_watched_actions",
   "video_p100_watched_actions", "video_p25_watched_actions",
   "video_p50_watched_actions", "video_p75_watched_actions",
   "cost_per_conversion", "cost_per_outbound_click",
   "video_p95_watched_actions", "website_ctr", "website_purchase_roas",
   "purchase_roas", "outbound_clicks", "conversions", "video_play_actions",
   "video_thruplay_watched_actions"]

/-- OutputParser.SERIALIZED_LISTS_TYPES. -/
def SERIALIZED_LISTS_TYPES : List String :=
  ["issues_info", "frequency_control_specs"]

/-- OutputParser._create_base_row. -/
def createBaseRow (pageId fbGraphNode : String) (parentId : JsonV) : Row :=
  [("ex_account_id", .str pageId), ("fb_graph_node", .str fbGraphNode),
   ("parent_id", parentId)]

/-- The identifier set of OutputParser._has_meaningful_data. -/
def basicIdentifiers : List String :=
  ["id", "parent_id", "ex_account_id", "fb_graph_node"]

/-- One conjunct of _has_meaningful_data's generator:
`key not in basic_identifiers and value is not None and value != ""`. -/
def meaningfulField (kv : String × JsonV) : Bool :=
  !(basicIdentifiers.contains kv.1) && !(isNull kv.2) && !(isEmptyStr kv.2)

/-- OutputParser._has_meaningful_data. -/
def hasMeaningfulData (rowData : Row) : Bool := rowData.any meaningfulField

/-- OutputParser._add_row: append the row to its table only when it has
meaningful data (creating the table entry on first use). -/
def addRow (result : Result) (tableName : String) (rowData : Row) : Result :=
  if hasMeaningfulData rowData then
    if result.any (fun p => p.1 == tableName) then
      result.map (fun p => if p.1 == tableName then (p.1, p.2 ++ [rowData]) else p)
    else result ++ [(tableName, [rowData])]
  else result

/-- The merge loop of OutputParser._process_nested_data: extend `result`
with every table of `nested`, appending rows table by table. -/
def mergeResults (result nested : Result) : Result :=
  nested.foldl
    (fun acc p =>
      if acc.any (fun q => q.1 == p.1) then
        acc.map (fun q => if q.1 == p.1 then (q.1, q.2 ++ p.2) else q)
      else acc ++ [(p.1, p.2)])
    result

/-- OutputParser._get_table_name. -/
def getTableName (rc : RowConfig) (tableName : String) : String :=
  let rowName := rc.name
  let isAsync := rc.rcType == some "async-insights-query"
  let isInsightsQuery := strStartsWith (rc.query.fields.getD "") "insights"
  if tableName == "" then
    if (isAsync || isInsightsQuery) && !(strEndsWith rowName "_insights") then
      rowName ++ "_insights"
    else rowName
  else
    if !(strContains rowName tableName) && !(strEndsWith rowName ("_" ++ tableName)) then
      rowName ++ "_" ++ tableName
    else rowName

/-- OutputParser._get_action_stats_table_name. -/
def getActionStatsTableName (rc : RowConfig) (statsFieldName : String) : String :=
  if strEndsWith rc.name ("_" ++ statsFieldName) then rc.name ++ "_insights"
  else rc.name ++ "_" ++ statsFieldName ++ "_insights"

/-- The `is_action_breakdown_query` test of OutputParser._process_row (the
identical condition is recomputed in _process_action_stats): the query has a
`parameters` attribute whose string form contains one of the two breakdown
markers. -/
def isActionBreakdownQuery (rc : RowConfig) : Bool :=
  match rc.query.parameters with
  | none => false
  | some p =>
      strContains p "action_breakdowns=action_reaction" ||
      strContains p "action_breakdowns=action_type"

mutual
/-- OutputParser._flatten_array. -/
def flattenArray (parentKey : String) : JsonV → List (String × JsonV)
  | .obj fs => flattenFields parentKey [] fs
  | .arr xs => flattenElems parentKey [] 0 xs
  | .null => [(parentKey, .null)]
  | .bool b => [(parentKey, .bool b)]
  | .num n => [(parentKey, .num n)]
  | .str s => [(parentKey, .str s)]

/-- The dict branch of _flatten_array: `result.update(nested)` per field. -/
def flattenFields (parentKey : String) (acc : List (String × JsonV)) :
    List (String × JsonV) → List (String × JsonV)
  | [] => acc
  | (k, v) :: rest =>
      flattenFields parentKey
        (dictUpdateMany acc (flattenArray (parentKey ++ "_" ++ k) v)) rest

/-- The list branch of _flatten_array: `result.update(nested)` per element,
with the running index in the key. -/
def flattenElems (parentKey : String) (acc : List (String × JsonV)) (i : Nat) :
    List JsonV → List (String × JsonV)
  | [] => acc
  | v :: rest =>
      flattenElems parentKey
        (dictUpdateMany acc (flattenArray (parentKey ++ "_" ++ toString i) v))
        (i + 1) rest
end

/-- OutputParser._process_single_field. -/
def processSingleField (key : String) (value : JsonV) : List (String × JsonV) :=
  if SERIALIZED_LISTS_TYPES.contains key then [(key, .str (jsonDumps value))]
  else if ADS_ACTION_STATS_ROW.contains key && isArr value then []
  else
    match value with
    | .obj _ => flattenArray key value
    | .arr _ => flattenArray key value
    | v => [(key, v)]

/-- The four buckets built by OutputParser._process_fields. -/
structure Processed where
  regularFields : List (String × JsonV)
  nestedTables : List (String × JsonV)
  actionStats : List (String × JsonV)
  values : Option JsonV

/-- The `{"data": [value["summary"]]}` object synthesized by
_process_fields for a summary-carrying field value. -/
def fakeNested (vfs : List (String × JsonV)) : JsonV :=
  .obj [("data", .arr [(objGet vfs "summary").getD .null])]

/-- The classification of one field by OutputParser._process_fields (the
body of its `for key, value in row.items()` loop). -/
def processFieldStep (p : Processed) (key : String) (value : JsonV) : Processed :=
  if key == "values" then { p with values := some value }
  else
    match value with
    | .obj vfs =>
        if hasKey vfs "data" then
          let p1 := { p with nestedTables := dictSet p.nestedTables key value }
          if hasKey vfs "summary" then
            { p1 with nestedTables := dictSet p1.nestedTables "summary" (fakeNested vfs) }
          else p1
        else if hasKey vfs "summary" then
          { p with nestedTables := dictSet p.nestedTables "summary" (fakeNested vfs) }
        else
          { p with regularFields := dictUpdateMany p.regularFields (processSingleField key value) }
    | .arr _ =>
        if ADS_ACTION_STATS_ROW.contains key then
          { p with actionStats := dictSet p.actionStats key value }
        else
          { p with regularFields := dictUpdateMany p.regularFields (processSingleField key value) }
    | _ =>
        { p with regularFields := dictUpdateMany p.regularFields (processSingleField key value) }

/-- The field-classification loop of OutputParser._process_fields. -/
def processFieldsAux (p : Processed) : List (String × JsonV) → Processed
  | [] => p
  | (key, value) :: rest => processFieldsAux (processFieldStep p key value) rest

/-- OutputParser._process_fields. -/
def processFields (row : List (String × JsonV)) : Processed :=
  processFieldsAux ⟨[], [], [], none⟩ row

/-- OutputParser._has_meaningful_value. For non-dict entries the Python
expression `"value" in value_data and value_data["value"] ...` either
short-circuits to False or raises a TypeError at the subscript. -/
def hasMeaningfulValue : JsonV → Except String Bool
  | .obj fs =>
      .ok (match objGet fs "value" with
           | some v => !(isNull v) && !(isEmptyStr v)
           | none => false)
  | .arr xs =>
      if xs.any (fun e => pyEqPrim e (.str "value")) then
        .error "TypeError: list indices must be integers"
      else .ok false
  | .str s =>
      if strContains s "value" then .error "TypeError: string indices must be integers"
      else .ok false
  | _ => .error "TypeError: argument is not a container"

/-- OutputParser._create_value_row, on the fields of the (dict) value entry. -/
def createValueRow (rc : RowConfig) (baseRow : Row) (vfs : List (String × JsonV)) : Row :=
  let row :=
    dictSet (dictSet (dictSet baseRow "key1" (.str "")) "key2" (.str ""))
      "value" ((objGet vfs "value").getD .null)
  if rc.query.fields.isSome && strContains (rc.query.fields.getD "") "insights" then
    dictSet row "end_time" ((objGet vfs "end_time").getD .null)
  else if hasKey vfs "end_time" then
    dictSet row "end_time" ((objGet vfs "end_time").getD .null)
  else row

/-- The entry loop of OutputParser._add_value_rows. -/
def addValueRowsLoop (rc : RowConfig) (tableName : String) (fullRowData : Row) :
    List JsonV → Result → Except String Result
  | [], result => .ok result
  | vd :: rest, result =>
      Except.bind (hasMeaningfulValue vd) (fun b =>
        if b then
          match vd with
          | .obj vfs =>
              addValueRowsLoop rc tableName fullRowData rest
                (addRow result tableName (createValueRow rc fullRowData vfs))
          | _ => .error "unreachable: meaningful value entry is a dict"
        else addValueRowsLoop rc tableName fullRowData rest result)

/-- OutputParser._add_value_rows (iteration over `values` included). -/
def addValueRows (rc : RowConfig) (result : Result) (tableName : String)
    (fullRowData : Row) (values : JsonV) : Except String Result :=
  match pyIter values with
  | .error e => .error e
  | .ok entries => addValueRowsLoop rc tableName fullRowData entries result

/-- The copy loop `for key, value in action.items(): if key not in excluded`
shared by _add_action_stats_to_main_table and _populate_action_row. -/
def copyActionExtras (row : Row) (afs : List (String × JsonV))
    (excluded : List String) : Row :=
  afs.foldl (fun acc kv => if excluded.contains kv.1 then acc else dictSet acc kv.1 kv.2) row

/-- The row built for one action in
OutputParser._add_action_stats_to_main_table: the action_type is reduced to
its last dot-separated segment and "post_save" renamed; other action fields
are copied through. Raises when action_type is a non-string (`.split`). -/
def mainActionRow (baseRow : Row) (afs : List (String × JsonV))
    (statsFieldName : String) : Except String Row :=
  match (objGet afs "action_type").getD (.str "") with
  | .str raw =>
      let actionType0 := (pySplitDot raw).getLastD ""
      let actionType := if actionType0 == "post_save" then "post_reaction" else actionType0
      let row :=
        dictSet (dictSet (dictSet baseRow "ads_action_name" (.str statsFieldName))
          "action_type" (.str actionType))
          "value" ((objGet afs "value").getD (.str ""))
      .ok (copyActionExtras row afs ["action_type", "value"])
  | _ => .error "AttributeError: split"

/-- Inner action loop of _add_action_stats_to_main_table. -/
def mainActionLoop (result : Result) (tableName : String) (baseRow : Row)
    (statsFieldName : String) : List JsonV → Except String Result
  | [] => .ok result
  | a :: rest =>
      match a with
      | .obj afs =>
          match mainActionRow baseRow afs statsFieldName with
          | .error e => .error e
          | .ok row => mainActionLoop (addRow result tableName row) tableName baseRow statsFieldName rest
      | _ => mainActionLoop result tableName baseRow statsFieldName rest

/-- OutputParser._add_action_stats_to_main_table. -/
def addActionStatsToMainTable (result : Result) (tableName : String)
    (baseRow : Row) : List (String × JsonV) → Except String Result
  | [] => .ok result
  | (statsFieldName, statsData) :: rest =>
      match statsData with
      | .arr actions =>
          match mainActionLoop result tableName baseRow statsFieldName actions with
          | .error e => .error e
          | .ok r => addActionStatsToMainTable r tableName baseRow rest
      | _ => addActionStatsToMainTable result tableName baseRow rest

/-- OutputParser._copy_common_fields. -/
def copyCommonFields (baseRow : Row) (originalRow : List (String × JsonV))
    (extended : Bool) : Row :=
  let fields :=
    ["account_id", "ad_id", "adset_id", "campaign_id", "date_start",
     "date_stop", "publisher_platform"] ++
    (if extended then ["account_name", "campaign_name"] else [])
  fields.foldl
    (fun acc f =>
      match objGet originalRow f with
      | some v => dictSet acc f v
      | none => acc)
    baseRow

/-- OutputParser._populate_action_row. -/
def populateActionRow (rc : RowConfig) (actionRow : Row)
    (afs : List (String × JsonV)) (statsFieldName : String)
    (originalRow : List (String × JsonV)) (isActionBreakdown : Bool) : Row :=
  let actionType0 := (objGet afs "action_type").getD (.str "")
  let actionType :=
    if pyEqPrim actionType0 (.str "post_save") then JsonV.str "post_reaction"
    else actionType0
  let row :=
    dictSet (dictSet (dictSet actionRow "ads_action_name" (.str statsFieldName))
      "action_type" actionType)
      "value" ((objGet afs "value").getD (.str ""))
  let row :=
    if isActionBreakdown &&
        strContains (rc.query.parameters.getD "") "action_breakdowns=action_reaction" then
      dictSet row "action_reaction"
        ((objGet afs "action_reaction").getD ((objGet originalRow "action_reaction").getD (.str "")))
    else row
  copyActionExtras row afs ["action_type", "value", "action_reaction"]

/-- OutputParser._process_action_stats (the breakdown-query path of row
emission; builds rows with _populate_action_row and adds them through
_add_row). -/
def processActionStats (ctx : ParserCtx) (fbGraphNode : String)
    (originalRow : List (String × JsonV)) (stats : List (String × JsonV))
    (result : Result) : Result :=
  let isAB := isActionBreakdownQuery ctx.rowConfig
  stats.foldl
    (fun res p =>
      match p.2 with
      | .arr actions =>
          let tableName :=
            if isAB then getTableName ctx.rowConfig ""
            else getActionStatsTableName ctx.rowConfig p.1
          let baseRow :=
            copyCommonFields (createBaseRow ctx.pageId fbGraphNode (.str ctx.pageId))
              originalRow isAB
          actions.foldl
            (fun r a =>
              match a with
              | .obj afs =>
                  addRow r tableName
                    (populateActionRow ctx.rowConfig baseRow afs p.1 originalRow isAB)
              | _ => r)
            res
      | _ => res)
    result

/-- OutputParser._extract_rows, on the fields of the (dict) page response.
Returns the Python value `data or []` / `[response]`; a present non-dict
`insights` value makes the Python code raise at `.get`. -/
def extractRows (fs : List (String × JsonV)) : Except String JsonV :=
  match (objGet fs "insights").getD (.obj fs) with
  | .obj tfs =>
      let data := objGet tfs "data"
      if pyFalsyOpt data && hasKey fs "id" then .ok (.arr [.obj fs])
      else if pyFalsyOpt data then .ok (.arr [])
      else .ok (data.getD .null)
  | _ => .error "AttributeError: get"

/-- `table_name or getattr(query, "path", "")` in _process_row. -/
def tableNameOrPath (tableNameArg : Option String) (rc : RowConfig) : String :=
  match tableNameArg with
  | some s => if s == "" then rc.query.path.getD "" else s
  | none => rc.query.path.getD ""

mutual
/-- OutputParser.parse_data. The fuel bounds the (in Python unbounded)
combination of pagination following and nested-table recursion; every mutual
call consumes one unit, and exhaustion returns `.error`. -/
def parseData (ctx : ParserCtx) (fuel : Nat) (response : JsonV)
    (fbNode : String) (parentId : JsonV) (tableNameArg : Option String) :
    Except String Result :=
  match fuel with
  | 0 => .error "recursion limit"
  | f + 1 => pagesLoop ctx f fbNode parentId tableNameArg (pyOr response (.obj [])) none []

/-- The pagination loop of parse_data / _iter_paginated_responses: process
the current page, then follow `paging.next` unless absent, falsy or equal to
the previously followed URL. -/
def pagesLoop (ctx : ParserCtx) (fuel : Nat) (fbNode : String) (parentId : JsonV)
    (tableNameArg : Option String) (current : JsonV) (currentUrl : Option JsonV)
    (result : Result) : Except String Result :=
  match fuel with
  | 0 => .error "recursion limit"
  | f + 1 =>
      match current with
      | .obj fs =>
          if fs.isEmpty then .ok result
          else
            match extractRows fs with
            | .error e => .error e
            | .ok rowsV =>
                if pyFalsy rowsV then .ok result
                else
                  match pyIter rowsV with
                  | .error e => .error e
                  | .ok rows =>
                      match rowsLoop ctx f fbNode parentId tableNameArg rows result with
                      | .error e => .error e
                      | .ok r1 =>
                          match pyOr ((objGet fs "paging").getD .null) (.obj []) with
                          | .obj pfs =>
                              match objGet pfs "next" with
                              | none => .ok r1
                              | some nu =>
                                  if pyFalsy nu then .ok r1
                                  else if (match currentUrl with
                                           | some cu => pyEqPrim nu cu
                                           | none => false) then .ok r1
                                  else
                                    match nu with
                                    | .str u =>
                                        pagesLoop ctx f fbNode parentId tableNameArg
                                          (ctx.loader u) (some nu) r1
                                    | _ => .error "TypeError: urlparse"
                          | _ => .error "AttributeError: get"
      | _ => .ok result

/-- The `for row in rows` loop of parse_data. -/
def rowsLoop (ctx : ParserCtx) (fuel : Nat) (fbNode : String) (parentId : JsonV)
    (tableNameArg : Option String) (rows : List JsonV) (result : Result) :
    Except String Result :=
  match fuel with
  | 0 => .error "recursion limit"
  | f + 1 =>
      match rows with
      | [] => .ok result
      | row :: rest =>
          match processRow ctx f fbNode parentId tableNameArg row result with
          | .error e => .error e
          | .ok r => rowsLoop ctx f fbNode parentId tableNameArg rest r

/-- OutputParser._process_row. -/
def processRow (ctx : ParserCtx) (fuel : Nat) (fbNode : String) (parentId : JsonV)
    (tableNameArg : Option String) (row : JsonV) (result : Result) :
    Except String Result :=
  match fuel with
  | 0 => .error "recursion limit"
  | f + 1 =>
      match row with
      | .obj rowFields =>
          let tableName := getTableName ctx.rowConfig (tableNameOrPath tableNameArg ctx.rowConfig)
          let baseRow := createBaseRow ctx.pageId fbNode parentId
          let pd := processFields rowFields
          let fullRowData := dictUpdateMany baseRow pd.regularFields
          let isABQ := isActionBreakdownQuery ctx.rowConfig
          let mainStep : Except String Result :=
            if !isABQ || pd.actionStats.isEmpty then
              if !isABQ && !pd.actionStats.isEmpty then
                addActionStatsToMainTable result tableName fullRowData pd.actionStats
              else
                match pd.values with
                | some v =>
                    if pyTruthy v then addValueRows ctx.rowConfig result tableName fullRowData v
                    else .ok (addRow result tableName fullRowData)
                | none => .ok (addRow result tableName fullRowData)
            else .ok result
          match mainStep with
          | .error e => .error e
          | .ok r1 =>
              let r2 :=
                if isABQ then processActionStats ctx fbNode rowFields pd.actionStats r1
                else r1
              nestedLoop ctx f pd.nestedTables rowFields fbNode r2
      | _ => .error "AttributeError: items"

/-- OutputParser._process_nested_data: recurse into each nested table and
merge the recursive mapping into the accumulating result. -/
def nestedLoop (ctx : ParserCtx) (fuel : Nat) (tables : List (String × JsonV))
    (originalRow : List (String × JsonV)) (fbNode : String) (result : Result) :
    Except String Result :=
  match fuel with
  | 0 => .error "recursion limit"
  | f + 1 =>
      match tables with
      | [] => .ok result
      | (tname, tdata) :: rest =>
          match parseData ctx f tdata (fbNode ++ "_" ++ tname)
              ((objGet originalRow "id").getD .null) (some tname) with
          | .error e => .error e
          | .ok nested => nestedLoop ctx f rest originalRow fbNode (mergeResults result nested)
end

/-! ## PageLoader (src/page_loader.py) -/

/-- The `{"data": []}` empty-result signal. -/
def dataEmpty : JsonV := .obj [("data", .arr [])]

/-- An HTTP response attached to a raised HTTPError: status code, body text
and the result of `response.json()` (`none` when JSON parsing raises). -/
structure HttpResponse where
  status : Nat
  text : String
  jsonBody : Option JsonV

/-- A raised `requests.HTTPError`: the optional attached response and the
exception's own string form `str(e)`. -/
structure HttpError where
  response : Option HttpResponse
  msg : String

/-- The structured branch of PageLoader._check_error_matches: look for
`error.code` / `error.error_subcode` in the parsed JSON body, else for the
phrase in the lowercased user title / user message / message fields. A
non-dict body or non-dict `error` value makes the Python code raise inside
the `try`, which the bare `except` swallows (no match from this branch). -/
def structuredMatch (j : JsonV) (phrase : String) (code subcode : Int) : Bool :=
  match j with
  | .obj jfs =>
      match (objGet jfs "error").getD (.obj []) with
      | .obj efs =>
          (jsonEqNum ((objGet efs "code").getD .null) code &&
           jsonEqNum ((objGet efs "error_subcode").getD .null) subcode) ||
          (let errorMsg :=
            pyLower (pyStr ((objGet efs "error_user_title").getD (.str ""))) ++ " " ++
            pyLower (pyStr ((objGet efs "error_user_msg").getD (.str ""))) ++ " " ++
            pyLower (pyStr ((objGet efs "message").getD (.str "")))
           strContains errorMsg phrase)
      | _ => false
  | _ => false

/-- PageLoader._check_error_matches. The structured JSON check runs only
when both an error code and subcode are given; the raw body text and the
exception text are always searched (case-insensitively) for the phrase. -/
def checkErrorMatches (e : HttpError) (phrase : String)
    (errorCode errorSubcode : Option Int) : Bool :=
  (match e.response with
   | none => false
   | some r =>
       (match errorCode, errorSubcode with
        | some c, some sc =>
            (match r.jsonBody with
             | none => false
             | some j => structuredMatch j phrase c sc)
        | _, _ => false) ||
       strContains (pyLower r.text) phrase) ||
  strContains (pyLower e.msg) phrase

/-- BUSINESS_CONVERSION_ERROR_CODE. -/
def BUSINESS_CONVERSION_ERROR_CODE : Int := 100

/-- BUSINESS_CONVERSION_ERROR_SUBCODE. -/
def BUSINESS_CONVERSION_ERROR_SUBCODE : Int := 2108006

/-- OBJECT_NOT_FOUND_ERROR_SUBCODE. -/
def OBJECT_NOT_FOUND_ERROR_SUBCODE : Int := 33

/-- PageLoader._is_business_conversion_error. -/
def isBusinessConversionError (e : HttpError) : Bool :=
  checkErrorMatches e "media posted before business account conversion"
    (some BUSINESS_CONVERSION_ERROR_CODE) (some BUSINESS_CONVERSION_ERROR_SUBCODE)

/-- PageLoader._is_30day_limit_error. -/
def is30DayLimitError (e : HttpError) : Bool :=
  checkErrorMatches e "there cannot be more than 30 days" none none

/-- PageLoader._is_object_not_found_error. -/
def isObjectNotFoundError (e : HttpError) : Bool :=
  checkErrorMatches e "does not exist, cannot be loaded due to missing permissions"
    (some BUSINESS_CONVERSION_ERROR_CODE) (some OBJECT_NOT_FOUND_ERROR_SUBCODE)

/-- PageLoader._is_recoverable_error. -/
def isRecoverableError (e : HttpError) : Bool × String :=
  if isBusinessConversionError e then
    (true, "Media Posted Before Business Account Conversion")
  else if is30DayLimitError e then
    (true, "30-day limit exceeded. The date range must be 30 days or less.")
  else if isObjectNotFoundError e then
    (true, "Account no longer exists or is inaccessible. Remove it or re-run Add Account.")
  else (false, "")

/-- The body of PageLoader._load_regular_page from the `client.get` call on:
`clientResult` is the outcome of the HTTP call (the raised HTTPError or the
JSON response). A falsy response is replaced by `{"data": []}`; a
recoverable error is converted to `{"data": []}`; other errors re-raise. -/
def loadRegularPage (clientResult : Except HttpError JsonV) : Except HttpError JsonV :=
  match clientResult with
  | .ok r => .ok (pyOr r dataEmpty)
  | .error e => if (isRecoverableError e).1 then .ok dataEmpty else .error e

/-- PageLoader._parse_unix_ts: a 10-character all-digit string parses to its
integer value; anything else (including an absent parameter) yields None. -/
def parseUnixTs (value : Option String) : Option Int :=
  match value with
  | none => none
  | some s =>
      if strAllDigits s && s.length == 10 then some ((strToNat s : Nat) : Int)
      else none

/-- Lookup of a single-valued query parameter in the dict produced by
`parse_qs` + single-value conversion in load_page_from_url. -/
def getParam (params : List (String × String)) (k : String) : Option String :=
  (params.find? (fun kv => kv.1 == k)).map (fun kv => kv.2)

/-- `params.pop(k, None)`. -/
def removeParam (params : List (String × String)) (k : String) :
    List (String × String) :=
  params.filter (fun kv => kv.1 != k)

/-- What load_page_from_url decides to do after the stale-pagination
heuristic, before any HTTP traffic: skip (return `{"data": []}` without
calling the client) or issue the request with possibly adjusted params. -/
inductive LoadDecision where
  | skip
  | request (params : List (String × String))
deriving Repr, DecidableEq

/-- The timestamp heuristic of PageLoader.load_page_from_url (lines
293-327): Case 1 skips when `since` parses, `until` does not, and `since`
is within the last hour of `now`; Case 2 (future `until`) skips when
`since` is also future or within the last hour, and otherwise drops
`until`. -/
def loadPageDecision (nowTs : Int) (params : List (String × String)) : LoadDecision :=
  match parseUnixTs (getParam params "since"), parseUnixTs (getParam params "until") with
  | some sinceTs, none =>
      if sinceTs > nowTs - 3600 then .skip else .request params
  | some sinceTs, some untilTs =>
      if untilTs > nowTs then
        if sinceTs > nowTs then .skip
        else if sinceTs > nowTs - 3600 then .skip
        else .request (removeParam params "until")
      else .request params
  | none, some untilTs =>
      if untilTs > nowTs then .request (removeParam params "until")
      else .request params
  | none, none => .request params

/-- PageLoader.load_page_from_url from the parsed `(path, params)` of the
pagination URL on: apply the stale-pagination decision, then call the HTTP
client (modelled as a function of the possibly adjusted params), replacing
falsy responses by `{"data": []}` and recovering the known error classes. -/
def loadPageFromUrl (client : List (String × String) → Except HttpError JsonV)
    (nowTs : Int) (params : List (String × String)) : Except HttpError JsonV :=
  match loadPageDecision nowTs params with
  | .skip => .ok dataEmpty
  | .request ps =>
      match client ps with
      | .ok r => .ok (if pyTruthy r then r else dataEmpty)
      | .error e => if (isRecoverableError e).1 then .ok dataEmpty else .error e

/-- Outcome of PageLoader.poll_async_job. `sleeps` records the argument of
every `time.sleep` call made, in order. -/
inductive PollResult where
  | success (data : JsonV) (sleeps : List Nat)
  | raisedJobFailed (status : JsonV) (sleeps : List Nat)
  | raisedTimeout (sleeps : List Nat)
  | raisedError (msg : String) (sleeps : List Nat)
deriving Repr

/-- Outcome of the polling while-loop alone. -/
inductive LoopOut where
  | completed (sleeps : List Nat)
  | jobFailed (status : JsonV) (sleeps : List Nat)
  | timeout (sleeps : List Nat)
  | errored (msg : String) (sleeps : List Nat)
deriving Repr

/-- The while-loop of PageLoader.poll_async_job. `responses i` is the
outcome of the i-th status GET (an exception is logged and re-raised). An
empty status response breaks out of the loop, after which the post-loop
check necessarily raises the timeout (the loop is only entered in a
non-completed state). -/
def pollLoop (responses : Nat → Except String JsonV) (i attempt : Nat)
    (isFinished : Bool) (asyncStatus : JsonV) (sleeps : List Nat) : LoopOut :=
  if (!isFinished || !(jsonEqStr asyncStatus "Job Completed")) && attempt < 60 then
    match responses i with
    | .error m => .errored m sleeps
    | .ok resp =>
        if pyFalsy resp then .timeout sleeps
        else
          match resp with
          | .obj rfs =>
              let percent := (objGet rfs "async_percent_completion").getD (.num 0)
              let status := (objGet rfs "async_status").getD (.str "Unknown")
              let fin := jsonEqNum percent 100
              if jsonEqStr status "Job Failed" || jsonEqStr status "Job Skipped" then
                .jobFailed status sleeps
              else if !fin || !(jsonEqStr status "Job Completed") then
                pollLoop responses (i + 1) (attempt + 1) fin status (sleeps ++ [5])
              else .completed sleeps
          | _ => .errored "AttributeError: get" sleeps
  else if !isFinished || !(jsonEqStr asyncStatus "Job Completed") then .timeout sleeps
  else .completed sleeps
termination_by 60 - attempt
decreasing_by
  simp only [Bool.and_eq_true, decide_eq_true_eq] at *
  omega

/-- PageLoader.poll_async_job. `finalFetch` is the outcome of the final
`{report_id}/insights` GET; on success a falsy final response, or a final
fetch failure, degrades to `{"data": []}`. -/
def pollAsyncJob (responses : Nat → Except String JsonV)
    (finalFetch : Except String JsonV) : PollResult :=
  match pollLoop responses 0 0 false (.str "") [] with
  | .completed sleeps =>
      match finalFetch with
      | .ok r => .success (if pyTruthy r then r else dataEmpty) sleeps
      | .error _ => .success dataEmpty sleeps
  | .jobFailed status sleeps => .raisedJobFailed status sleeps
  | .timeout sleeps => .raisedTimeout sleeps
  | .errored m sleeps => .raisedError m sleeps

/-- The sleep log of a loop outcome. -/
def LoopOut.sleeps : LoopOut → List Nat
  | .completed s => s
  | .jobFailed _ s => s
  | .timeout s => s
  | .errored _ s => s

/-- The sleep log of a poll outcome. -/
def PollResult.sleepLog : PollResult → List Nat
  | .success _ s => s
  | .raisedJobFailed _ s => s
  | .raisedTimeout s => s
  | .raisedError _ s => s

/-- A status response reporting percent completion 100 and status
"Job Completed" (the success condition of the polling loop). -/
def successResp (v : JsonV) : Bool :=
  match v with
  | .obj rfs =>
      jsonEqNum ((objGet rfs "async_percent_completion").getD (.num 0)) 100 &&
      jsonEqStr ((objGet rfs "async_status").getD (.str "Unknown")) "Job Completed"
  | _ => false

/-! ## Component (src/component.py) -/

/-- PRIMARY_KEY_CANDIDATES, verbatim from component.py (note that
"ads_action_name" appears twice, at positions 9 and 14). -/
def PRIMARY_KEY_CANDIDATES : List String :=
  ["id", "parent_id", "key1", "key2", "end_time", "account_id", "campaign_id",
   "date_start", "date_stop", "ads_action_name", "action_type",
   "action_reaction", "ad_id", "publisher_platform", "ads_action_name",
   "adset_id"]

/-- `col in available_columns` for the union of keys across a batch. -/
def batchHasColumn (rows : List Row) (c : String) : Bool :=
  rows.any (fun r => r.any (fun kv => kv.1 == c))

/-- Component._get_primary_key. -/
def getPrimaryKey (rows : List Row) : List String :=
  if rows.isEmpty then []
  else
    let primaryKey := PRIMARY_KEY_CANDIDATES.filter (fun c => batchHasColumn rows c)
    if primaryKey.isEmpty then
      if batchHasColumn rows "id" then ["id"] else []
    else primaryKey

/-! ## Statement-support definitions -/

/-- Every row of every table of a mapping has meaningful data. -/
def ResultOk (r : Result) : Prop :=
  ∀ p ∈ r, ∀ row ∈ p.2, hasMeaningfulData row = true

/-- The rows of one table of a result mapping (empty when absent). -/
def tableRows (result : Result) (t : String) : List Row :=
  ((result.find? (fun p => p.1 == t)).map (fun p => p.2)).getD []

/-- The pure success value of `hasMeaningfulValue` on a dict entry: the
entry has a `value` field that is neither None nor the empty string. -/
def meaningfulEntry : JsonV → Bool
  | .obj fs =>
      (match objGet fs "value" with
       | some v => !(isNull v) && !(isEmptyStr v)
       | none => false)
  | _ => false

/-- `createValueRow` lifted to a JSON entry (the entries reaching it are
dicts). -/
def valueRowOf (rc : RowConfig) (fullRowData : Row) : JsonV → Row
  | .obj vfs => createValueRow rc fullRowData vfs
  | _ => []

/-- The action-type normalization of _add_action_stats_to_main_table: last
dot-separated segment, then the post_save → post_reaction rename. -/
def normalizedActionType (s : String) : String :=
  let t := (pySplitDot s).getLastD ""
  if t == "post_save" then "post_reaction" else t

/-- The action-type rename of _populate_action_row: only the literal
"post_save" is rewritten; dotted names pass through verbatim. -/
def postSaveRename (s : String) : String :=
  if s == "post_save" then "post_reaction" else s

/-- The summary object synthesized for one row field by _process_fields, if
any: dict values with a `summary` key yield their summary (the `values`
field is diverted to the values bucket first and never synthesizes one). -/
def summaryOf (kv : String × JsonV) : Option JsonV :=
  if kv.1 == "values" then none
  else
    match kv.2 with
    | .obj vfs => if hasKey vfs "summary" then some ((objGet vfs "summary").getD .null) else none
    | _ => none

/-- The last summary object synthesized while scanning a row's fields. -/
def lastSummary (row : List (String × JsonV)) : Option JsonV :=
  (row.filterMap summaryOf).getLast?

/-! ## Helper lemmas -/

theorem resultOk_nil : ResultOk [] := by
  intro p hp
  cases hp

theorem appendRows_resultOk (acc : Result) (t : String) (rows : List Row)
    (hacc : ResultOk acc) (hrows : ∀ row ∈ rows, hasMeaningfulData row = true) :
    ResultOk (if acc.any (fun q => q.1 == t) then
                acc.map (fun q => if q.1 == t then (q.1, q.2 ++ rows) else q)
              else acc ++ [(t, rows)]) := by
  intro p hp row hrow
  split at hp
  · obtain ⟨q, hq, rfl⟩ := List.mem_map.mp hp
    split at hrow
    · rcases List.mem_append.mp hrow with h1 | h1
      · exact hacc q hq row h1
      · exact hrows row h1
    · exact hacc q hq row hrow
  · rcases List.mem_append.mp hp with h1 | h1
    · exact hacc p h1 row hrow
    · rw [List.mem_singleton] at h1
      subst h1
      exact hrows row hrow

theorem addRow_resultOk (r : Result) (t : String) (row : Row)
    (h : ResultOk r) : ResultOk (addRow r t row) := by
  unfold addRow
  split
  · exact appendRows_resultOk r t [row] h
      (by intro x hx; rw [List.mem_singleton] at hx; subst hx; assumption)
  · exact h

theorem mergeResults_resultOk :
    ∀ (b a : Result), ResultOk a → ResultOk b → ResultOk (mergeResults a b) := by
  intro b
  induction b with
  | nil => intro a ha _; simpa [mergeResults] using ha
  | cons p rest ih =>
      intro a ha hb
      have hstep :
          ResultOk (if a.any (fun q => q.1 == p.1) then
                      a.map (fun q => if q.1 == p.1 then (q.1, q.2 ++ p.2) else q)
                    else a ++ [(p.1, p.2)]) :=
        appendRows_resultOk a p.1 p.2 ha (hb p (List.mem_cons_self p rest))
      have hrest : ResultOk rest := by
        intro q hq row hrow
        exact hb q (List.mem_cons_of_mem p hq) row hrow
      simpa [mergeResults] using ih _ hstep hrest

theorem foldlPreserve {α β : Type _} (P : β → Prop) (f : β → α → β)
    (hf : ∀ b a, P b → P (f b a)) :
    ∀ (l : List α) (b : β), P b → P (l.foldl f b) := by
  intro l
  induction l with
  | nil => intro b h; exact h
  | cons x rest ih => intro b h; exact ih _ (hf b x h)

theorem addValueRowsLoop_resultOk (rc : RowConfig) (tn : String) (fr : Row) :
    ∀ (entries : List JsonV) (result res : Result), ResultOk result →
      addValueRowsLoop rc tn fr entries result = .ok res → ResultOk res := by
  intro entries
  induction entries with
  | nil =>
      intro result res h heq
      unfold addValueRowsLoop at heq
      cases heq
      exact h
  | cons vd rest ih =>
      intro result res h heq
      unfold addValueRowsLoop at heq
      cases hmv : hasMeaningfulValue vd with
      | error e => rw [hmv] at heq; cases heq
      | ok b =>
          rw [hmv] at heq
          simp only [Except.bind] at heq
          split at heq
          · split at heq
            · exact ih _ _ (addRow_resultOk _ _ _ h) heq
            · cases heq
          · exact ih _ _ h heq

theorem addValueRows_resultOk (rc : RowConfig) (tn : String) (fr : Row)
    (values : JsonV) (result res : Result) (h : ResultOk result)
    (heq : addValueRows rc result tn fr values = .ok res) : ResultOk res := by
  unfold addValueRows at heq
  split at heq
  · cases heq
  · exact addValueRowsLoop_resultOk rc tn fr _ _ _ h heq

theorem mainActionLoop_resultOk (tn : String) (baseRow : Row) (sfn : String) :
    ∀ (actions : List JsonV) (result res : Result), ResultOk result →
      mainActionLoop result tn baseRow sfn actions = .ok res → ResultOk res := by
  intro actions
  induction actions with
  | nil =>
      intro result res h heq
      unfold mainActionLoop at heq
      cases heq
      exact h
  | cons a rest ih =>
      intro result res h heq
      unfold mainActionLoop at heq
      split at heq
      · split at heq
        · cases heq
        · exact ih _ _ (addRow_resultOk _ _ _ h) heq
      · exact ih _ _ h heq

theorem addActionStatsToMainTable_resultOk (tn : String) (baseRow : Row) :
    ∀ (stats : List (String × JsonV)) (result res : Result), ResultOk result →
      addActionStatsToMainTable result tn baseRow stats = .ok res → ResultOk res := by
  intro stats
  induction stats with
  | nil =>
      intro result res h heq
      unfold addActionStatsToMainTable at heq
      cases heq
      exact h
  | cons p rest ih =>
      intro result res h heq
      unfold addActionStatsToMainTable at heq
      split at heq
      · split at heq
        · cases heq
        · rename_i heq2
          exact ih _ _ (mainActionLoop_resultOk tn baseRow _ _ _ _ h heq2) heq
      · exact ih _ _ h heq

theorem processActionStats_resultOk (ctx : ParserCtx) (fbNode : String)
    (originalRow : List (String × JsonV)) (stats : List (String × JsonV))
    (result : Result) (h : ResultOk result) :
    ResultOk (processActionStats ctx fbNode originalRow stats result) := by
  unfold processActionStats
  refine foldlPreserve ResultOk _ ?_ stats result h
  intro res p hres
  split
  · refine foldlPreserve ResultOk _ ?_ _ res hres
    intro r a hr
    split
    · exact addRow_resultOk _ _ _ hr
    · exact hr
  · exact hres

theorem parserInv (ctx : ParserCtx) : ∀ fuel : Nat,
    (∀ response fbNode parentId tblArg res,
        parseData ctx fuel response fbNode parentId tblArg = .ok res → ResultOk res) ∧
    (∀ fbNode parentId tblArg current currentUrl result res,
        pagesLoop ctx fuel fbNode parentId tblArg current currentUrl result = .ok res →
          ResultOk result → ResultOk res) ∧
    (∀ fbNode parentId tblArg rows result res,
        rowsLoop ctx fuel fbNode parentId tblArg rows result = .ok res →
          ResultOk result → ResultOk res) ∧
    (∀ fbNode parentId tblArg row result res,
        processRow ctx fuel fbNode parentId tblArg row result = .ok res →
          ResultOk result → ResultOk res) ∧
    (∀ tables originalRow fbNode result res,
        nestedLoop ctx fuel tables originalRow fbNode result = .ok res →
          ResultOk result → ResultOk res) := by
  intro fuel
  induction fuel with
  | zero =>
      refine ⟨?_, ?_, ?_, ?_, ?_⟩
      · intro _ _ _ _ _ h; unfold parseData at h; cases h
      · intro _ _ _ _ _ _ _ h _; unfold pagesLoop at h; cases h
      · intro _ _ _ _ _ _ h _; unfold rowsLoop at h; cases h
      · intro _ _ _ _ _ _ h _; unfold processRow at h; cases h
      · intro _ _ _ _ _ h _; unfold nestedLoop at h; cases h
  | succ f ih =>
      obtain ⟨ihParse, ihPages, ihRows, ihRow, ihNested⟩ := ih
      refine ⟨?_, ?_, ?_, ?_, ?_⟩
      · -- parseData
        intro resp fb pid tbl res h
        unfold parseData at h
        exact ihPages _ _ _ _ _ _ _ h resultOk_nil
      · -- pagesLoop
        intro fb pid tbl current curl result res h hok
        unfold pagesLoop at h
        split at h
        · -- current = .obj fs
          split at h
          · cases h; exact hok
          · split at h
            · cases h
            · split at h
              · cases h; exact hok
              · split at h
                · cases h
                · split at h
                  · cases h
                  · -- rowsLoop gave .ok r1
                    rename_i r1 hr1
                    have hok1 : ResultOk r1 := ihRows _ _ _ _ _ _ hr1 hok
                    split at h
                    · -- paging is a dict
                      split at h
                      · cases h; exact hok1
                      · split at h
                        · cases h; exact hok1
                        · split at h
                          · cases h; exact hok1
                          · split at h
                            · exact ihPages _ _ _ _ _ _ _ h hok1
                            · cases h
                    · cases h
        · cases h; exact hok
      · -- rowsLoop
        intro fb pid tbl rows result res h hok
        unfold rowsLoop at h
        split at h
        · cases h; exact hok
        · split at h
          · cases h
          · rename_i r hr
            exact ihRows _ _ _ _ _ _ h (ihRow _ _ _ _ _ _ hr hok)
      · -- processRow
        intro fb pid tbl row result res h hok
        unfold processRow at h
        split at h
        · -- row = .obj rowFields
          dsimp only at h
          split at h
          · cases h
          · rename_i r1 hr1
            have hok1 : ResultOk r1 := by
              split at hr1
              · split at hr1
                · exact addActionStatsToMainTable_resultOk _ _ _ _ _ hok hr1
                · split at hr1
                  · split at hr1
                    · exact addValueRows_resultOk _ _ _ _ _ _ hok hr1
                    · cases hr1; exact addRow_resultOk _ _ _ hok
                  · cases hr1; exact addRow_resultOk _ _ _ hok
              · cases hr1; exact hok
            refine ihNested _ _ _ _ _ h ?_
            split
            · exact processActionStats_resultOk _ _ _ _ _ hok1
            · exact hok1
        · cases h
      · -- nestedLoop
        intro tables orow fb result res h hok
        unfold nestedLoop at h
        split at h
        · cases h; exact hok
        · split at h
          · cases h
          · rename_i nested hnested
            exact ihNested _ _ _ _ _ h
              (mergeResults_resultOk _ _ hok (ihParse _ _ _ _ _ hnested))

/-! ## Dictionary and table lookup lemmas -/

theorem find?_eq_none_of_any_false {α : Type} (d : List (String × α)) (t : String)
    (h : d.any (fun p => p.1 == t) = false) :
    d.find? (fun p => p.1 == t) = none := by
  induction d with
  | nil => rfl
  | cons p rest ih =>
      simp only [List.any_cons, Bool.or_eq_false_iff] at h
      simp only [List.find?_cons, h.1]
      exact ih h.2

theorem objGet_cons (p : String × JsonV) (rest : List (String × JsonV)) (k2 : String) :
    objGet (p :: rest) k2 = if (p.1 == k2) = true then some p.2 else objGet rest k2 := by
  unfold objGet
  rw [List.find?_cons]
  by_cases h : (p.1 == k2) = true
  · rw [h]
    simp
  · have hf : (p.1 == k2) = false := by
      rwa [Bool.not_eq_true] at h
    rw [hf]
    simp [hf]

theorem hasKey_cons (p : String × JsonV) (rest : List (String × JsonV)) (k : String) :
    hasKey (p :: rest) k = ((p.1 == k) || hasKey rest k) := by
  simp [hasKey]

theorem objGet_mapSet (d : List (String × JsonV)) (k : String) (v : JsonV) (k2 : String) :
    objGet (d.map (fun kv => if kv.1 == k then (k, v) else kv)) k2 =
      if k2 = k then (if hasKey d k then some v else none) else objGet d k2 := by
  induction d with
  | nil =>
      by_cases hk2 : k2 = k <;> simp [objGet, hasKey, hk2]
  | cons p rest ih =>
      simp only [List.map_cons]
      by_cases hp : (p.1 == k) = true
      · have hpk : p.1 = k := eq_of_beq hp
        rw [if_pos hp, objGet_cons, objGet_cons]
        dsimp only
        by_cases hk2 : k2 = k
        · subst hk2
          simp [hasKey_cons, hp]
        · have hkk2 : (k == k2) = false := beq_eq_false_iff_ne.mpr (fun h => hk2 h.symm)
          have hpk2 : (p.1 == k2) = false := by rw [hpk]; exact hkk2
          rw [hkk2, hpk2]
          simp only [Bool.false_eq_true, if_false]
          rw [ih, if_neg hk2, if_neg hk2]
      · have hpf : (p.1 == k) = false := by
          rwa [Bool.not_eq_true] at hp
        rw [if_neg hp, objGet_cons, objGet_cons]
        by_cases hk2 : k2 = k
        · subst hk2
          rw [hpf]
          simp only [Bool.false_eq_true, if_false]
          rw [ih]
          simp [hasKey_cons, hpf]
        · by_cases hpk2 : (p.1 == k2) = true
          · simp [hpk2, hk2]
          · have hpk2f : (p.1 == k2) = false := by
              rwa [Bool.not_eq_true] at hpk2
            rw [hpk2f]
            simp only [Bool.false_eq_true, if_false]
            rw [ih, if_neg hk2, if_neg hk2]

theorem objGet_dictSet (d : List (String × JsonV)) (k : String) (v : JsonV) (k2 : String) :
    objGet (dictSet d k v) k2 = if k2 = k then some v else objGet d k2 := by
  unfold dictSet
  split
  · rename_i hany
    rw [objGet_mapSet]
    by_cases hk2 : k2 = k
    · rw [if_pos hk2, if_pos hk2, if_pos (show hasKey d k = true from hany)]
    · rw [if_neg hk2, if_neg hk2]
  · rename_i hany
    have hanyf : d.any (fun kv => kv.1 == k) = false := by
      rwa [Bool.not_eq_true] at hany
    have hnone : d.find? (fun kv => kv.1 == k) = none :=
      find?_eq_none_of_any_false d k hanyf
    by_cases hk2 : k2 = k
    · subst hk2
      unfold objGet
      rw [List.find?_append, hnone, List.find?_cons, beq_self_eq_true k2]
      simp
    · have hkk2 : (k == k2) = false := beq_eq_false_iff_ne.mpr (fun h => hk2 h.symm)
      unfold objGet
      rw [List.find?_append, List.find?_cons, hkk2, if_neg hk2]
      simp

theorem hasKey_dictSet_imp (d : List (String × JsonV)) (k : String) (v : JsonV)
    (k2 : String) (h : hasKey (dictSet d k v) k2 = true) :
    hasKey d k2 = true ∨ k2 = k := by
  unfold dictSet at h
  split at h
  · unfold hasKey at h
    rw [List.any_eq_true] at h
    obtain ⟨x, hx, hxk2⟩ := h
    obtain ⟨p, hp, rfl⟩ := List.mem_map.mp hx
    by_cases hpk : (p.1 == k) = true
    · right
      rw [if_pos hpk] at hxk2
      exact (eq_of_beq hxk2).symm
    · left
      rw [if_neg hpk] at hxk2
      unfold hasKey
      rw [List.any_eq_true]
      exact ⟨p, hp, hxk2⟩
  · unfold hasKey at h
    rw [List.any_append] at h
    rcases Bool.or_eq_true_iff.mp h with h1 | h1
    · exact Or.inl h1
    · right
      simp only [List.any_cons, List.any_nil, Bool.or_false] at h1
      exact (eq_of_beq h1).symm

theorem hasMeaningful_of_objGet (row : Row) (k : String) (val : JsonV)
    (hk : basicIdentifiers.contains k = false) (h : objGet row k = some val)
    (hnn : isNull val = false) (hne : isEmptyStr val = false) :
    hasMeaningfulData row = true := by
  unfold objGet at h
  cases hfind : row.find? (fun kv => kv.1 == k) with
  | none => rw [hfind] at h; cases h
  | some kv =>
      rw [hfind] at h
      have h2 : kv.2 = val := by
        simpa using h
      have hmem := List.mem_of_find?_eq_some hfind
      have hkeq : kv.1 = k := eq_of_beq (by simpa using List.find?_some hfind)
      unfold hasMeaningfulData
      rw [List.any_eq_true]
      refine ⟨kv, hmem, ?_⟩
      unfold meaningfulField
      rw [hkeq, hk, h2, hnn, hne]
      rfl

theorem tableRows_cons (p : String × List Row) (rest : Result) (t2 : String) :
    tableRows (p :: rest) t2 = if (p.1 == t2) = true then p.2 else tableRows rest t2 := by
  unfold tableRows
  rw [List.find?_cons]
  by_cases h : (p.1 == t2) = true
  · rw [h]
    simp
  · have hf : (p.1 == t2) = false := by
      rwa [Bool.not_eq_true] at h
    rw [hf]
    simp [hf]

theorem tableRows_mapAppend (r : Result) (t : String) (rows : List Row) (t2 : String) :
    tableRows (r.map (fun q => if q.1 == t then (q.1, q.2 ++ rows) else q)) t2 =
      if t2 = t then
        (if r.any (fun q => q.1 == t) then tableRows r t2 ++ rows else tableRows r t2)
      else tableRows r t2 := by
  induction r with
  | nil =>
      by_cases ht2 : t2 = t <;> simp [tableRows, ht2]
  | cons q rest ih =>
      simp only [List.map_cons, List.any_cons]
      by_cases hq : (q.1 == t) = true
      · have hqt : q.1 = t := eq_of_beq hq
        rw [if_pos hq, tableRows_cons, tableRows_cons]
        dsimp only
        by_cases ht2 : t2 = t
        · subst ht2
          simp [hq]
        · have hqt2 : (q.1 == t2) = false := by
            rw [hqt]; exact beq_eq_false_iff_ne.mpr (fun h => ht2 h.symm)
          rw [hqt2]
          simp only [Bool.false_eq_true, if_false]
          rw [ih, if_neg ht2, if_neg ht2]
      · have hqf : (q.1 == t) = false := by
          rwa [Bool.not_eq_true] at hq
        rw [if_neg hq, tableRows_cons, tableRows_cons]
        by_cases ht2 : t2 = t
        · subst ht2
          simp only [hqf, Bool.false_eq_true, if_false, Bool.false_or]
          rw [ih]
          simp
        · by_cases hqt2 : (q.1 == t2) = true
          · simp [hqt2, ht2]
          · have hqt2f : (q.1 == t2) = false := by
              rwa [Bool.not_eq_true] at hqt2
            rw [hqt2f]
            simp only [Bool.false_eq_true, if_false]
            rw [ih, if_neg ht2, if_neg ht2]

theorem tableRows_addRow (r : Result) (t : String) (row : Row) (t2 : String) :
    tableRows (addRow r t row) t2 =
      if hasMeaningfulData row = true ∧ t2 = t then tableRows r t2 ++ [row]
      else tableRows r t2 := by
  unfold addRow
  by_cases hm : hasMeaningfulData row = true
  · rw [if_pos hm]
    split
    · rename_i hany
      rw [tableRows_mapAppend]
      by_cases ht2 : t2 = t
      · rw [if_pos ht2, if_pos (show r.any (fun q => q.1 == t) = true from hany),
          if_pos ⟨hm, ht2⟩]
      · rw [if_neg ht2, if_neg (fun hc => ht2 hc.2)]
    · rename_i hany
      have hanyf : r.any (fun p => p.1 == t) = false := by
        rwa [Bool.not_eq_true] at hany
      have hnone : r.find? (fun p => p.1 == t) = none :=
        find?_eq_none_of_any_false r t hanyf
      by_cases ht2 : t2 = t
      · subst ht2
        unfold tableRows
        rw [List.find?_append, hnone, List.find?_cons, beq_self_eq_true t2,
          if_pos ⟨hm, rfl⟩]
        simp
      · have htt2 : (t == t2) = false := beq_eq_false_iff_ne.mpr (fun h => ht2 h.symm)
        unfold tableRows
        rw [List.find?_append, List.find?_cons, htt2, if_neg (fun hc => ht2 hc.2)]
        simp
  · rw [if_neg hm]
    rw [if_neg (fun hc => hm hc.1)]

/-! ## Claim C1 -/

/-- C1: Meaningful-row invariant. Every row present in the mapping returned
by OutputParser.parse_data — for every table and every emission path (main
rows, values-array rows, action-statistics rows on both the breakdown and
the non-breakdown path, and rows merged from nested-table recursion) — has
at least one field whose key is outside {id, parent_id, ex_account_id,
fb_graph_node} and whose value is neither null nor the empty string; rows
carrying only those identifier fields are never emitted. -/
theorem C1_parseData_meaningful_rows (ctx : ParserCtx) (fuel : Nat)
    (response : JsonV) (fbNode : String) (parentId : JsonV)
    (tableNameArg : Option String) (res : Result)
    (h : parseData ctx fuel response fbNode parentId tableNameArg = .ok res) :
    ∀ p ∈ res, ∀ row ∈ p.2, hasMeaningfulData row = true :=
  (parserInv ctx fuel).1 response fbNode parentId tableNameArg res h

/-- Witness for C1 at a concrete parse producing one row. -/
theorem C1_witness :
    hasMeaningfulData
      [("ex_account_id", JsonV.str "acc"), ("fb_graph_node", JsonV.str "posts"),
       ("parent_id", JsonV.null), ("id", JsonV.str "1"),
       ("name", JsonV.str "hello")] = true :=
  C1_parseData_meaningful_rows
    ⟨fun _ => .obj [], "acc", ⟨"posts", none, ⟨none, none, none⟩⟩⟩ 5
    (.obj [("data", .arr [.obj [("id", .str "1"), ("name", .str "hello")]])])
    "posts" .null none
    [("posts",
      [[("ex_account_id", JsonV.str "acc"), ("fb_graph_node", JsonV.str "posts"),
        ("parent_id", JsonV.null), ("id", JsonV.str "1"),
        ("name", JsonV.str "hello")]])] rfl
    ("posts",
      [[("ex_account_id", JsonV.str "acc"), ("fb_graph_node", JsonV.str "posts"),
        ("parent_id", JsonV.null), ("id", JsonV.str "1"),
        ("name", JsonV.str "hello")]]) (List.Mem.head _)
    [("ex_account_id", JsonV.str "acc"), ("fb_graph_node", JsonV.str "posts"),
     ("parent_id", JsonV.null), ("id", JsonV.str "1"),
     ("name", JsonV.str "hello")] (List.Mem.head _)

/-! ## Claim C4 -/

/-- C4: Table-name determinism. (1) With no override, a query named "posts"
whose fields string begins with "insights" yields table "posts_insights";
(2) with nested-field override "comments" on query name "feed" the table is
"feed_comments"; (3) the rule is idempotent with respect to its suffix: a
name already ending in "_insights" is returned unchanged in the no-override
case, and a name already containing the override is returned unchanged in
the override case — in particular "posts_insights" stays "posts_insights". -/
theorem C4_table_name_determinism :
    (∀ rc : RowConfig, rc.name = "posts" →
        strStartsWith (rc.query.fields.getD "") "insights" = true →
        getTableName rc "" = "posts_insights") ∧
    (∀ rc : RowConfig, rc.name = "feed" → getTableName rc "comments" = "feed_comments") ∧
    (∀ rc : RowConfig, strEndsWith rc.name "_insights" = true → getTableName rc "" = rc.name) ∧
    (∀ rc : RowConfig, ∀ tn : String, tn ≠ "" → strContains rc.name tn = true →
        getTableName rc tn = rc.name) ∧
    (∀ rc : RowConfig, rc.name = "posts_insights" → getTableName rc "" = "posts_insights") := by
  refine ⟨?_, ?_, ?_, ?_, ?_⟩
  · intro rc h1 h2
    have hend : strEndsWith "posts" "_insights" = false := by decide
    simp [getTableName, h1, h2, hend]
  · intro rc h1
    have hc : strContains "feed" "comments" = false := by decide
    have he : strEndsWith "feed" "_comments" = false := by decide
    simp [getTableName, h1, hc, he]
  · intro rc h
    simp only [getTableName, h]
    simp
  · intro rc tn hne hcontains
    have hbe : (tn == "") = false := by
      simpa using hne
    simp only [getTableName, hbe, hcontains]
    simp
  · intro rc h
    have hend : strEndsWith "posts_insights" "_insights" = true := by decide
    simp only [getTableName, h, hend]
    simp

/-- Witness for C4 at concrete row configurations. -/
theorem C4_witness :
    getTableName ⟨"posts", none, ⟨none, some "insights.metric(x)", none⟩⟩ "" = "posts_insights" ∧
    getTableName ⟨"feed", none, ⟨none, some "comments", none⟩⟩ "comments" = "feed_comments" ∧
    getTableName ⟨"posts_insights", none, ⟨none, some "insights.metric(x)", none⟩⟩ "" = "posts_insights" ∧
    getTableName ⟨"feed_comments", none, ⟨none, none, none⟩⟩ "comments" = "feed_comments" :=
  ⟨C4_table_name_determinism.1 _ rfl (by decide),
   C4_table_name_determinism.2.1 _ rfl,
   C4_table_name_determinism.2.2.2.2 _ rfl,
   C4_table_name_determinism.2.2.2.1 _ "comments" (by decide) (by decide)⟩

/-! ## Claim C8 -/

/-- For any column other than the duplicated "ads_action_name", the
candidate list mentions it at most once. -/
theorem candidates_count_le_one (c : String) (hc : c ≠ "ads_action_name") :
    PRIMARY_KEY_CANDIDATES.count c ≤ 1 := by
  by_cases hmem : c ∈ PRIMARY_KEY_CANDIDATES
  · simp only [PRIMARY_KEY_CANDIDATES, List.mem_cons, List.not_mem_nil, or_false] at hmem
    rcases hmem with rfl | rfl | rfl | rfl | rfl | rfl | rfl | rfl | rfl | rfl | rfl | rfl | rfl | rfl | rfl | rfl
    all_goals first
      | exact absurd rfl hc
      | decide
  · simp [List.count_eq_zero.mpr hmem]

/-- If any candidate column is present, the filtered candidate list is
non-empty; in particular it is non-empty whenever "id" is present. -/
theorem pk_filter_ne_nil_of_id (rows : List Row)
    (hid : batchHasColumn rows "id" = true) :
    PRIMARY_KEY_CANDIDATES.filter (fun c => batchHasColumn rows c) ≠ [] := by
  intro hempty
  have hmem : "id" ∈ PRIMARY_KEY_CANDIDATES.filter (fun c => batchHasColumn rows c) := by
    rw [List.mem_filter]
    exact ⟨by decide, hid⟩
  rw [hempty] at hmem
  cases hmem

/-- C8 counterexample: the claim asserts the chosen primary key is an
intersection, hence lists each column at most once; but on a batch whose
rows carry an "ads_action_name" column the code returns that column twice,
because PRIMARY_KEY_CANDIDATES itself lists it twice. -/
theorem C8_counterexample :
    getPrimaryKey [[("ads_action_name", JsonV.str "x")]] =
      ["ads_action_name", "ads_action_name"] ∧
    ¬ (getPrimaryKey [[("ads_action_name", JsonV.str "x")]]).Nodup := by
  constructor
  · rfl
  · decide

/-- C8 (amended): for every non-empty batch, the chosen primary key IS the
fixed priority list filtered to the columns present across the batch — in
priority order, each column occurring exactly as often as the list mentions
it (so at most once except "ads_action_name", which occurs exactly twice
whenever present); when no candidate column is present the result is empty,
and the `["id"]` fallback is unreachable because "id" is itself a
candidate. -/
theorem C8_primary_key_selection (rows : List Row) (hne : rows ≠ []) :
    getPrimaryKey rows = PRIMARY_KEY_CANDIDATES.filter (fun c => batchHasColumn rows c) ∧
    (∀ c, (getPrimaryKey rows).count c =
        if batchHasColumn rows c then PRIMARY_KEY_CANDIDATES.count c else 0) ∧
    (∀ c, c ≠ "ads_action_name" → (getPrimaryKey rows).count c ≤ 1) ∧
    (batchHasColumn rows "ads_action_name" = true →
      (getPrimaryKey rows).count "ads_action_name" = 2) ∧
    (PRIMARY_KEY_CANDIDATES.filter (fun c => batchHasColumn rows c) = [] →
      batchHasColumn rows "id" = false ∧ getPrimaryKey rows = []) := by
  have h0 : rows.isEmpty = false := by
    cases rows with
    | nil => exact absurd rfl hne
    | cons a l => rfl
  have hform : getPrimaryKey rows =
      (if (PRIMARY_KEY_CANDIDATES.filter (fun c => batchHasColumn rows c)).isEmpty then
        (if batchHasColumn rows "id" then ["id"] else [])
       else PRIMARY_KEY_CANDIDATES.filter (fun c => batchHasColumn rows c)) := by
    unfold getPrimaryKey
    rw [h0]
    rfl
  have hnoid : (PRIMARY_KEY_CANDIDATES.filter (fun c => batchHasColumn rows c)).isEmpty = true →
      batchHasColumn rows "id" = false := by
    intro hempty
    by_contra hid
    exact pk_filter_ne_nil_of_id rows (by simpa using hid) (by simpa using hempty)
  have heq : getPrimaryKey rows =
      PRIMARY_KEY_CANDIDATES.filter (fun c => batchHasColumn rows c) := by
    rw [hform]
    by_cases hempty : (PRIMARY_KEY_CANDIDATES.filter (fun c => batchHasColumn rows c)).isEmpty = true
    · have hid := hnoid hempty
      have hnil : PRIMARY_KEY_CANDIDATES.filter (fun c => batchHasColumn rows c) = [] := by
        simpa using hempty
      rw [if_pos hempty, if_neg (by simp [hid]), hnil]
    · rw [if_neg hempty]
  refine ⟨heq, ?_, ?_, ?_, ?_⟩
  · intro c
    rw [heq]
    by_cases hc : batchHasColumn rows c = true
    · rw [if_pos hc, List.count_filter hc]
    · rw [if_neg hc]
      refine List.count_eq_zero.mpr ?_
      intro hmem
      rw [List.mem_filter] at hmem
      exact hc hmem.2
  · intro c hc
    rw [heq]
    calc (PRIMARY_KEY_CANDIDATES.filter (fun c2 => batchHasColumn rows c2)).count c
          ≤ PRIMARY_KEY_CANDIDATES.count c :=
            (List.filter_sublist PRIMARY_KEY_CANDIDATES).count_le c
      _ ≤ 1 := candidates_count_le_one c hc
  · intro hpresent
    rw [heq, List.count_filter hpresent]
    decide
  · intro hempty
    have hid := hnoid (by simpa using hempty)
    exact ⟨hid, by rw [heq, hempty]⟩

/-- Witness for C8 (amended) at concrete batches, including the id-only
mainline case where the key is exactly ["id"]. -/
theorem C8_witness :
    getPrimaryKey [[("id", JsonV.str "1"), ("name", JsonV.str "n")]] = ["id"] ∧
    (getPrimaryKey [[("ads_action_name", JsonV.str "x"), ("campaign_id", JsonV.str "c")]]).count
        "campaign_id" = 1 ∧
    (getPrimaryKey [[("ads_action_name", JsonV.str "x"), ("campaign_id", JsonV.str "c")]]).count
        "ads_action_name" = 2 :=
  ⟨Eq.trans (C8_primary_key_selection _ (List.cons_ne_nil _ _)).1 (by decide),
   Eq.trans ((C8_primary_key_selection _ (List.cons_ne_nil _ _)).2.1 "campaign_id") (by decide),
   (C8_primary_key_selection _ (List.cons_ne_nil _ _)).2.2.2.1 rfl⟩

/-! ## Claim C9 -/

/-- C9 counterexample: the claim says the whole object is treated as a
single-row list only when the `data` key is absent; but on
`{"id": "1", "data": []}` the `data` key is present (and empty) and the
code still returns the whole object as the single row, not the empty data
list. -/
theorem C9_counterexample :
    extractRows [("id", JsonV.str "1"), ("data", JsonV.arr [])] =
      .ok (.arr [.obj [("id", JsonV.str "1"), ("data", JsonV.arr [])]]) ∧
    hasKey [("id", JsonV.str "1"), ("data", JsonV.arr [])] "data" = true ∧
    JsonV.arr [.obj [("id", JsonV.str "1"), ("data", JsonV.arr [])]] ≠ .arr [] := by
  refine ⟨rfl, rfl, ?_⟩
  intro h
  simp at h

/-- C9 (amended): row extraction prefers `(response.insights or
response).data`. When that `data` value is a non-empty list it is returned
as the row list; when `data` is absent **or falsy** (None, empty list, …)
the whole object is returned as a single-row list provided the response has
an "id" key, and the empty list otherwise. -/
theorem C9_row_extraction (fs tfs : List (String × JsonV))
    (htarget : (objGet fs "insights" = none ∧ tfs = fs) ∨
        objGet fs "insights" = some (.obj tfs)) :
    (∀ xs, objGet tfs "data" = some (.arr xs) → xs ≠ [] →
        extractRows fs = .ok (.arr xs)) ∧
    (pyFalsyOpt (objGet tfs "data") = true →
      (hasKey fs "id" = true → extractRows fs = .ok (.arr [.obj fs])) ∧
      (hasKey fs "id" = false → extractRows fs = .ok (.arr []))) := by
  have hbody : extractRows fs =
      (if pyFalsyOpt (objGet tfs "data") && hasKey fs "id" then .ok (.arr [.obj fs])
       else if pyFalsyOpt (objGet tfs "data") then .ok (.arr [])
       else .ok ((objGet tfs "data").getD .null)) := by
    unfold extractRows
    rcases htarget with ⟨hins, rfl⟩ | hins
    · rw [hins]
      rfl
    · rw [hins]
      rfl
  constructor
  · intro xs hdata hne
    have hfalsy : pyFalsyOpt (objGet tfs "data") = false := by
      rw [hdata]
      cases xs with
      | nil => exact absurd rfl hne
      | cons a l => rfl
    rw [hbody, hfalsy, hdata]
    simp
  · intro hfalsy
    constructor
    · intro hid
      rw [hbody, hfalsy, hid]
      rfl
    · intro hid
      rw [hbody, hfalsy, hid]
      rfl

/-- Witness for C9 (amended) at concrete responses. -/
theorem C9_witness :
    extractRows [("data", JsonV.arr [.obj [("x", JsonV.num 1)]])] =
      .ok (.arr [.obj [("x", JsonV.num 1)]]) ∧
    extractRows [("id", JsonV.str "7")] = .ok (.arr [.obj [("id", JsonV.str "7")]]) :=
  ⟨(C9_row_extraction [("data", JsonV.arr [.obj [("x", JsonV.num 1)]])]
      [("data", JsonV.arr [.obj [("x", JsonV.num 1)]])] (Or.inl ⟨rfl, rfl⟩)).1 _ rfl
      (List.cons_ne_nil _ _),
   ((C9_row_extraction [("id", JsonV.str "7")] [("id", JsonV.str "7")]
      (Or.inl ⟨rfl, rfl⟩)).2 rfl).1 rfl⟩

/-! ## Claim C10 -/

/-- The "summary" slot of the nested-tables dict after classifying one
field: a summary-carrying field overwrites it with its synthesized
single-row table, any other field leaves it unchanged (for fields not
literally named "summary", which would write the same slot through the
nested-collection branch). -/
theorem processFieldStep_summary (p : Processed) (k : String) (v : JsonV)
    (hk : k ≠ "summary") :
    objGet (processFieldStep p k v).nestedTables "summary" =
      (match summaryOf (k, v) with
       | some s => some (JsonV.obj [("data", JsonV.arr [s])])
       | none => objGet p.nestedTables "summary") := by
  have hsne : ("summary" : String) ≠ k := fun h => hk h.symm
  unfold processFieldStep
  by_cases hkv : (k == "values") = true
  · rw [if_pos hkv]
    have hsum : summaryOf (k, v) = none := by
      simp [summaryOf, hkv]
    rw [hsum]
  · rw [if_neg hkv]
    have hkvf : (k == "values") = false := by
      rwa [Bool.not_eq_true] at hkv
    cases v with
    | obj vfs =>
        dsimp only
        by_cases hdata : hasKey vfs "data" = true
        · rw [if_pos hdata]
          by_cases hsumk : hasKey vfs "summary" = true
          · have hsum : summaryOf (k, .obj vfs) = some ((objGet vfs "summary").getD .null) := by
              simp [summaryOf, hkvf, hsumk]
            rw [if_pos hsumk, hsum]
            dsimp only
            rw [objGet_dictSet]
            rw [if_pos rfl]
            rfl
          · have hsum : summaryOf (k, .obj vfs) = none := by
              simp only [summaryOf, hkvf, Bool.false_eq_true, if_false]
              rw [if_neg hsumk]
            rw [if_neg hsumk, hsum]
            dsimp only
            rw [objGet_dictSet, if_neg hsne]
        · rw [if_neg hdata]
          by_cases hsumk : hasKey vfs "summary" = true
          · have hsum : summaryOf (k, .obj vfs) = some ((objGet vfs "summary").getD .null) := by
              simp [summaryOf, hkvf, hsumk]
            rw [if_pos hsumk, hsum]
            dsimp only
            rw [objGet_dictSet, if_pos rfl]
            rfl
          · have hsum : summaryOf (k, .obj vfs) = none := by
              simp only [summaryOf, hkvf, Bool.false_eq_true, if_false]
              rw [if_neg hsumk]
            rw [if_neg hsumk, hsum]
    | arr xs =>
        dsimp only
        have hsum : summaryOf (k, .arr xs) = none := by
          simp [summaryOf, hkvf]
        rw [hsum]
        split <;> rfl
    | null =>
        have hsum : summaryOf (k, .null) = none := by
          simp [summaryOf, hkvf]
        rw [hsum]
    | bool b =>
        have hsum : summaryOf (k, .bool b) = none := by
          simp [summaryOf, hkvf]
        rw [hsum]
    | num n =>
        have hsum : summaryOf (k, .num n) = none := by
          simp [summaryOf, hkvf]
        rw [hsum]
    | str s2 =>
        have hsum : summaryOf (k, .str s2) = none := by
          simp [summaryOf, hkvf]
        rw [hsum]

/-- The accumulator form of C10. -/
theorem processFieldsAux_summary :
    ∀ (row : List (String × JsonV)), (∀ kv ∈ row, kv.1 ≠ "summary") →
    ∀ p : Processed,
      objGet (processFieldsAux p row).nestedTables "summary" =
        (match (row.filterMap summaryOf).getLast? with
         | some s => some (JsonV.obj [("data", JsonV.arr [s])])
         | none => objGet p.nestedTables "summary") := by
  intro row
  induction row with
  | nil => intro _ p; rfl
  | cons kv rest ih =>
      intro hns p
      obtain ⟨k, v⟩ := kv
      have hk : k ≠ "summary" := hns (k, v) (List.mem_cons_self _ _)
      have hns2 : ∀ kv ∈ rest, kv.1 ≠ "summary" := fun kv h => hns kv (List.mem_cons_of_mem _ h)
      rw [List.filterMap_cons]
      show objGet (processFieldsAux (processFieldStep p k v) rest).nestedTables "summary" = _
      rw [ih hns2, processFieldStep_summary p k v hk]
      cases hs : summaryOf (k, v) with
      | none => rfl
      | some s =>
          rw [List.getLast?_cons]
          cases hfm : (rest.filterMap summaryOf).getLast? with
          | none => rfl
          | some s2 => rfl

/-- C10: Implicit summary-collapse. All synthesized summary nested tables of
one source row share the single nested-context key "summary", so when two or
more distinct fields of the same row each carry a summary object (alongside
data or summary-only), only the LAST such field's summary survives as the
one synthesized single-row "summary" nested table recorded for the row;
earlier summaries are overwritten in the nested-tables dict and never reach
emission. (Rows with a field literally named "summary" are excluded: such a
field writes the same dict slot through the nested-collection branch.) -/
theorem C10_summary_collapse (row : List (String × JsonV))
    (hns : ∀ kv ∈ row, kv.1 ≠ "summary") :
    objGet (processFields row).nestedTables "summary" =
      (lastSummary row).map (fun s => JsonV.obj [("data", JsonV.arr [s])]) := by
  unfold processFields lastSummary
  rw [processFieldsAux_summary row hns ⟨[], [], [], none⟩]
  cases (row.filterMap summaryOf).getLast? with
  | none => rfl
  | some s => rfl

/-- Witness for C10: a row where field "a" carries data plus a summary with
total_count 5 and field "b" carries a summary-only value with total_count 7;
only the second summary survives. -/
theorem C10_witness :
    objGet
      (processFields
        [("a", JsonV.obj [("data", JsonV.arr [JsonV.obj [("id", JsonV.str "c")]]),
                          ("summary", JsonV.obj [("total_count", JsonV.num 5)])]),
         ("b", JsonV.obj [("summary", JsonV.obj [("total_count", JsonV.num 7)])])]).nestedTables
      "summary" =
      some (JsonV.obj [("data", JsonV.arr [JsonV.obj [("total_count", JsonV.num 7)]])]) := by
  rw [C10_summary_collapse _ (by decide)]
  rfl

/-! ## Claim C2 -/

theorem createValueRow_key1 (rc : RowConfig) (b : Row) (vfs : List (String × JsonV)) :
    objGet (createValueRow rc b vfs) "key1" = some (.str "") := by
  unfold createValueRow
  split
  · rw [objGet_dictSet, if_neg (by decide), objGet_dictSet, if_neg (by decide),
      objGet_dictSet, if_neg (by decide), objGet_dictSet, if_pos rfl]
  · split
    · rw [objGet_dictSet, if_neg (by decide), objGet_dictSet, if_neg (by decide),
        objGet_dictSet, if_neg (by decide), objGet_dictSet, if_pos rfl]
    · rw [objGet_dictSet, if_neg (by decide), objGet_dictSet, if_neg (by decide),
        objGet_dictSet, if_pos rfl]

theorem createValueRow_key2 (rc : RowConfig) (b : Row) (vfs : List (String × JsonV)) :
    objGet (createValueRow rc b vfs) "key2" = some (.str "") := by
  unfold createValueRow
  split
  · rw [objGet_dictSet, if_neg (by decide), objGet_dictSet, if_neg (by decide),
      objGet_dictSet, if_pos rfl]
  · split
    · rw [objGet_dictSet, if_neg (by decide), objGet_dictSet, if_neg (by decide),
        objGet_dictSet, if_pos rfl]
    · rw [objGet_dictSet, if_neg (by decide), objGet_dictSet, if_pos rfl]

theorem createValueRow_value (rc : RowConfig) (b : Row) (vfs : List (String × JsonV)) :
    objGet (createValueRow rc b vfs) "value" = some ((objGet vfs "value").getD .null) := by
  unfold createValueRow
  split
  · rw [objGet_dictSet, if_neg (by decide), objGet_dictSet, if_pos rfl]
  · split
    · rw [objGet_dictSet, if_neg (by decide), objGet_dictSet, if_pos rfl]
    · rw [objGet_dictSet, if_pos rfl]

theorem createValueRow_meaningful (rc : RowConfig) (b : Row)
    (vfs : List (String × JsonV)) (hm : meaningfulEntry (.obj vfs) = true) :
    hasMeaningfulData (createValueRow rc b vfs) = true := by
  have hv : ∃ v, objGet vfs "value" = some v ∧ isNull v = false ∧ isEmptyStr v = false := by
    unfold meaningfulEntry at hm
    dsimp only at hm
    cases hval : objGet vfs "value" with
    | none => rw [hval] at hm; cases hm
    | some v =>
        rw [hval] at hm
        obtain ⟨h1, h2⟩ : isNull v = false ∧ isEmptyStr v = false := by
          simpa using hm
        exact ⟨v, rfl, h1, h2⟩
  obtain ⟨v, hval, hnn, hne⟩ := hv
  refine hasMeaningful_of_objGet _ "value" v (by decide) ?_ hnn hne
  rw [createValueRow_value, hval]
  rfl

theorem createValueRow_keys (rc : RowConfig) (b : Row) (vfs : List (String × JsonV))
    (k2 : String) (h : hasKey (createValueRow rc b vfs) k2 = true) :
    hasKey b k2 = true ∨ k2 ∈ ["key1", "key2", "value", "end_time"] := by
  unfold createValueRow at h
  split at h
  · rcases hasKey_dictSet_imp _ _ _ _ h with h1 | rfl
    · rcases hasKey_dictSet_imp _ _ _ _ h1 with h2 | rfl
      · rcases hasKey_dictSet_imp _ _ _ _ h2 with h3 | rfl
        · rcases hasKey_dictSet_imp _ _ _ _ h3 with h4 | rfl
          · exact Or.inl h4
          · exact Or.inr (by decide)
        · exact Or.inr (by decide)
      · exact Or.inr (by decide)
    · exact Or.inr (by decide)
  · split at h
    · rcases hasKey_dictSet_imp _ _ _ _ h with h1 | rfl
      · rcases hasKey_dictSet_imp _ _ _ _ h1 with h2 | rfl
        · rcases hasKey_dictSet_imp _ _ _ _ h2 with h3 | rfl
          · rcases hasKey_dictSet_imp _ _ _ _ h3 with h4 | rfl
            · exact Or.inl h4
            · exact Or.inr (by decide)
          · exact Or.inr (by decide)
        · exact Or.inr (by decide)
      · exact Or.inr (by decide)
    · rcases hasKey_dictSet_imp _ _ _ _ h with h1 | rfl
      · rcases hasKey_dictSet_imp _ _ _ _ h1 with h2 | rfl
        · rcases hasKey_dictSet_imp _ _ _ _ h2 with h3 | rfl
          · exact Or.inl h3
          · exact Or.inr (by decide)
        · exact Or.inr (by decide)
      · exact Or.inr (by decide)

theorem addValueRowsLoop_spec (rc : RowConfig) (tn : String) (fr : Row) :
    ∀ (entries : List JsonV) (result : Result),
      (∀ e ∈ entries, ∃ fs, e = JsonV.obj fs) →
      ∃ res, addValueRowsLoop rc tn fr entries result = .ok res ∧
        tableRows res tn =
          tableRows result tn ++ (entries.filter meaningfulEntry).map (valueRowOf rc fr) ∧
        (∀ t2, t2 ≠ tn → tableRows res t2 = tableRows result t2) := by
  intro entries
  induction entries with
  | nil =>
      intro result _
      exact ⟨result, rfl, by simp, fun _ _ => rfl⟩
  | cons e rest ih =>
      intro result hobj
      obtain ⟨fs, rfl⟩ := hobj e (List.mem_cons_self _ _)
      have hobj2 : ∀ x ∈ rest, ∃ gs, x = JsonV.obj gs :=
        fun x h => hobj x (List.mem_cons_of_mem _ h)
      have hmv : hasMeaningfulValue (.obj fs) = .ok (meaningfulEntry (.obj fs)) := rfl
      unfold addValueRowsLoop
      rw [hmv]
      simp only [Except.bind]
      by_cases hme : meaningfulEntry (.obj fs) = true
      · rw [if_pos hme]
        obtain ⟨res, hres, hrows, hother⟩ := ih (addRow result tn (createValueRow rc fr fs)) hobj2
        refine ⟨res, hres, ?_, ?_⟩
        · rw [hrows, tableRows_addRow,
            if_pos ⟨createValueRow_meaningful rc fr fs hme, rfl⟩,
            List.filter_cons_of_pos hme, List.map_cons, List.append_assoc]
          rfl
        · intro t2 ht2
          rw [hother t2 ht2, tableRows_addRow, if_neg (fun hc => ht2 hc.2)]
      · rw [if_neg hme]
        have hmef : meaningfulEntry (.obj fs) = false := by
          rwa [Bool.not_eq_true] at hme
        obtain ⟨res, hres, hrows, hother⟩ := ih result hobj2
        exact ⟨res, hres, by rwa [List.filter_cons_of_neg (by simp [hmef])], hother⟩

/-- C2 counterexample: the claim quantifies over EVERY source row with a
values list, but a (non-breakdown) row that also carries an
action-statistics field emits only action rows — its meaningful values
entry produces no row at all (no emitted row even has a "key1" column). -/
theorem C2_counterexample :
    parseData ⟨fun _ => .obj [], "acc", ⟨"posts", none, ⟨none, none, none⟩⟩⟩ 6
        (.obj [("data", .arr [.obj [
          ("values", .arr [.obj [("value", .num 1000),
                                 ("end_time", .str "2024-01-01T08:00:00+0000")],
                           .obj [("value", .null)]]),
          ("actions", .arr [.obj [("action_type", .str "like"), ("value", .str "2")]])]])])
        "page" .null none =
      .ok [("posts",
        [[("ex_account_id", .str "acc"), ("fb_graph_node", .str "page"),
          ("parent_id", .null), ("ads_action_name", .str "actions"),
          ("action_type", .str "like"), ("value", .str "2")]])] ∧
    meaningfulEntry (.obj [("value", .num 1000),
        ("end_time", .str "2024-01-01T08:00:00+0000")]) = true ∧
    ([("posts",
        [[("ex_account_id", JsonV.str "acc"), ("fb_graph_node", JsonV.str "page"),
          ("parent_id", JsonV.null), ("ads_action_name", JsonV.str "actions"),
          ("action_type", JsonV.str "like"), ("value", JsonV.str "2")]])] : Result).all
      (fun p => p.2.all (fun row => !(hasKey row "key1"))) = true :=
  ⟨rfl, rfl, rfl⟩

/-- C2 (amended): Values-array expansion on the values-emission path. For a
`values` list of dict entries handed to _add_value_rows, each entry whose
`value` is present, non-null and non-empty becomes exactly one emitted row
— the rows appended to the destination table are precisely, in order, the
value rows of the meaningful entries, other tables are untouched — and each
such row carries key1="", key2="", value=<the entry's value>, every other
column coming from the base row or being end_time. (Rows that also carry
action-statistics fields never reach this path; see the counterexample.) -/
theorem C2_values_expansion (rc : RowConfig) (result : Result) (tn : String)
    (fullRowData : Row) (entries : List JsonV)
    (hobj : ∀ e ∈ entries, ∃ fs, e = JsonV.obj fs) :
    ∃ res, addValueRows rc result tn fullRowData (.arr entries) = .ok res ∧
      tableRows res tn =
        tableRows result tn ++ (entries.filter meaningfulEntry).map (valueRowOf rc fullRowData) ∧
      (∀ t2, t2 ≠ tn → tableRows res t2 = tableRows result t2) ∧
      (∀ e ∈ entries, meaningfulEntry e = true →
        objGet (valueRowOf rc fullRowData e) "key1" = some (.str "") ∧
        objGet (valueRowOf rc fullRowData e) "key2" = some (.str "") ∧
        (∀ fs, e = JsonV.obj fs →
          objGet (valueRowOf rc fullRowData e) "value" = some ((objGet fs "value").getD .null)) ∧
        (∀ k2, hasKey (valueRowOf rc fullRowData e) k2 = true →
          hasKey fullRowData k2 = true ∨ k2 ∈ ["key1", "key2", "value", "end_time"])) := by
  obtain ⟨res, hres, hrows, hother⟩ := addValueRowsLoop_spec rc tn fullRowData entries result hobj
  refine ⟨res, hres, hrows, hother, ?_⟩
  intro e he _
  obtain ⟨fs, rfl⟩ := hobj e he
  refine ⟨createValueRow_key1 rc fullRowData fs, createValueRow_key2 rc fullRowData fs, ?_, ?_⟩
  · intro gs hgs
    injection hgs with hgs
    subst hgs
    exact createValueRow_value rc fullRowData fs
  · intro k2 hk2
    exact createValueRow_keys rc fullRowData fs k2 hk2

/-- Witness for C2 (amended) at the fixture of the claim, plus the concrete
evaluation: the two-entry values list yields exactly one row. -/
theorem C2_witness :
    (addValueRows ⟨"posts", none, ⟨none, none, none⟩⟩ [] "posts_insights"
        [("ex_account_id", JsonV.str "acc"), ("fb_graph_node", JsonV.str "pg_insights"),
         ("parent_id", JsonV.str "p1")]
        (.arr [JsonV.obj [("value", JsonV.num 1000),
                          ("end_time", JsonV.str "2024-01-01T08:00:00+0000")],
               JsonV.obj [("value", JsonV.null)]]) =
      .ok [("posts_insights",
        [[("ex_account_id", JsonV.str "acc"), ("fb_graph_node", JsonV.str "pg_insights"),
          ("parent_id", JsonV.str "p1"), ("key1", JsonV.str ""), ("key2", JsonV.str ""),
          ("value", JsonV.num 1000),
          ("end_time", JsonV.str "2024-01-01T08:00:00+0000")]])]) ∧
    ∃ res, addValueRows ⟨"posts", none, ⟨none, none, none⟩⟩ [] "posts_insights"
        [("ex_account_id", JsonV.str "acc"), ("fb_graph_node", JsonV.str "pg_insights"),
         ("parent_id", JsonV.str "p1")]
        (.arr [JsonV.obj [("value", JsonV.num 1000),
                          ("end_time", JsonV.str "2024-01-01T08:00:00+0000")],
               JsonV.obj [("value", JsonV.null)]]) = .ok res ∧
      tableRows res "posts_insights" =
        tableRows ([] : Result) "posts_insights" ++
          (([JsonV.obj [("value", JsonV.num 1000),
                        ("end_time", JsonV.str "2024-01-01T08:00:00+0000")],
             JsonV.obj [("value", JsonV.null)]]).filter meaningfulEntry).map
            (valueRowOf ⟨"posts", none, ⟨none, none, none⟩⟩
              [("ex_account_id", JsonV.str "acc"), ("fb_graph_node", JsonV.str "pg_insights"),
               ("parent_id", JsonV.str "p1")]) ∧
      (∀ t2, t2 ≠ "posts_insights" →
        tableRows res t2 = tableRows ([] : Result) t2) ∧
      (∀ e ∈ [JsonV.obj [("value", JsonV.num 1000),
                         ("end_time", JsonV.str "2024-01-01T08:00:00+0000")],
              JsonV.obj [("value", JsonV.null)]],
        meaningfulEntry e = true →
        objGet (valueRowOf ⟨"posts", none, ⟨none, none, none⟩⟩
            [("ex_account_id", JsonV.str "acc"), ("fb_graph_node", JsonV.str "pg_insights"),
             ("parent_id", JsonV.str "p1")] e) "key1" = some (.str "") ∧
        objGet (valueRowOf ⟨"posts", none, ⟨none, none, none⟩⟩
            [("ex_account_id", JsonV.str "acc"), ("fb_graph_node", JsonV.str "pg_insights"),
             ("parent_id", JsonV.str "p1")] e) "key2" = some (.str "") ∧
        (∀ fs, e = JsonV.obj fs →
          objGet (valueRowOf ⟨"posts", none, ⟨none, none, none⟩⟩
              [("ex_account_id", JsonV.str "acc"), ("fb_graph_node", JsonV.str "pg_insights"),
               ("parent_id", JsonV.str "p1")] e) "value" =
            some ((objGet fs "value").getD .null)) ∧
        (∀ k2, hasKey (valueRowOf ⟨"posts", none, ⟨none, none, none⟩⟩
            [("ex_account_id", JsonV.str "acc"), ("fb_graph_node", JsonV.str "pg_insights"),
             ("parent_id", JsonV.str "p1")] e) k2 = true →
          hasKey [("ex_account_id", JsonV.str "acc"), ("fb_graph_node", JsonV.str "pg_insights"),
                  ("parent_id", JsonV.str "p1")] k2 = true ∨
          k2 ∈ ["key1", "key2", "value", "end_time"])) :=
  ⟨rfl,
   C2_values_expansion ⟨"posts", none, ⟨none, none, none⟩⟩ [] "posts_insights"
     [("ex_account_id", JsonV.str "acc"), ("fb_graph_node", JsonV.str "pg_insights"),
      ("parent_id", JsonV.str "p1")]
     [JsonV.obj [("value", JsonV.num 1000),
                 ("end_time", JsonV.str "2024-01-01T08:00:00+0000")],
      JsonV.obj [("value", JsonV.null)]]
     (by
       intro e he
       rcases List.mem_cons.mp he with rfl | he2
       · exact ⟨_, rfl⟩
       · rcases List.mem_cons.mp he2 with rfl | he3
         · exact ⟨_, rfl⟩
         · cases he3)⟩

/-! ## Claim C3 -/

theorem objGet_copyActionExtras (excl : List String) (k : String)
    (hk : excl.contains k = true) :
    ∀ (afs : List (String × JsonV)) (row : Row),
      objGet (copyActionExtras row afs excl) k = objGet row k := by
  intro afs
  induction afs with
  | nil => intro row; rfl
  | cons a rest ih =>
      intro row
      show objGet (copyActionExtras
        (if excl.contains a.1 then row else dictSet row a.1 a.2) rest excl) k = objGet row k
      rw [ih]
      split
      · rfl
      · rename_i hcont
        rw [objGet_dictSet, if_neg ?_]
        intro he
        exact hcont (he ▸ hk)

/-- C3 counterexample: on the breakdown path an emitted action row keeps the
dotted action_type verbatim — "offsite_conversion.fb_pixel_purchase" is NOT
reduced to its last segment, contradicting the claim's "this holds for
action rows emitted on both the breakdown and the non-breakdown path". -/
theorem C3_counterexample :
    parseData ⟨fun _ => .obj [], "acc",
        ⟨"ads", none, ⟨none, none, some "action_breakdowns=action_type"⟩⟩⟩ 6
        (.obj [("data", .arr [.obj [("actions", .arr
          [.obj [("action_type", .str "offsite_conversion.fb_pixel_purchase"),
                 ("value", .str "3")]])]])])
        "page" .null none =
      .ok [("ads",
        [[("ex_account_id", .str "acc"), ("fb_graph_node", .str "page"),
          ("parent_id", .str "acc"), ("ads_action_name", .str "actions"),
          ("action_type", .str "offsite_conversion.fb_pixel_purchase"),
          ("value", .str "3")]])] ∧
    objGet [("ex_account_id", JsonV.str "acc"), ("fb_graph_node", JsonV.str "page"),
        ("parent_id", JsonV.str "acc"), ("ads_action_name", JsonV.str "actions"),
        ("action_type", JsonV.str "offsite_conversion.fb_pixel_purchase"),
        ("value", JsonV.str "3")] "action_type" =
      some (.str "offsite_conversion.fb_pixel_purchase") ∧
    jsonEqStr (JsonV.str "offsite_conversion.fb_pixel_purchase") "fb_pixel_purchase" = false :=
  ⟨rfl, rfl, rfl⟩

/-- C3 (amended): Action-type normalization, per path. On the non-breakdown
path (_add_action_stats_to_main_table) the emitted action_type is reduced
to its last dot-separated segment and the literal "post_save" is renamed
"post_reaction". On the breakdown path (_populate_action_row) the dotted
name is passed through VERBATIM and only the literal "post_save" is renamed
— so the dotted-suffix reduction holds only on the non-breakdown path. -/
theorem C3_action_type_normalization (baseRow : Row) (afs : List (String × JsonV))
    (statsFieldName : String) (s : String)
    (h : objGet afs "action_type" = some (.str s))
    (rc : RowConfig) (originalRow : List (String × JsonV)) (isAB : Bool) :
    (∀ row2, mainActionRow baseRow afs statsFieldName = .ok row2 →
        objGet row2 "action_type" = some (.str (normalizedActionType s))) ∧
    objGet (populateActionRow rc baseRow afs statsFieldName originalRow isAB)
        "action_type" = some (.str (postSaveRename s)) := by
  constructor
  · intro row2 hrow2
    unfold mainActionRow at hrow2
    rw [h] at hrow2
    dsimp only [Option.getD_some] at hrow2
    injection hrow2 with hrow2
    subst hrow2
    rw [objGet_copyActionExtras _ _ (by decide)]
    rw [objGet_dictSet, if_neg (by decide), objGet_dictSet, if_pos rfl]
    rfl
  · unfold populateActionRow
    rw [h]
    dsimp only [Option.getD_some]
    rw [objGet_copyActionExtras _ _ (by decide)]
    split
    · rw [objGet_dictSet, if_neg (by decide), objGet_dictSet, if_neg (by decide),
        objGet_dictSet, if_pos rfl]
      unfold postSaveRename
      by_cases hc : (s == "post_save") = true
      · simp [pyEqPrim, hc]
      · simp [pyEqPrim, hc]
    · rw [objGet_dictSet, if_neg (by decide), objGet_dictSet, if_pos rfl]
      unfold postSaveRename
      by_cases hc : (s == "post_save") = true
      · simp [pyEqPrim, hc]
      · simp [pyEqPrim, hc]

/-- Witness for C3 (amended) at concrete action entries: the dotted name is
reduced on the main-table path, passed through on the breakdown path, and
post_save is renamed. -/
theorem C3_witness :
    (∀ row2, mainActionRow
        [("ex_account_id", JsonV.str "acc")]
        [("action_type", JsonV.str "offsite_conversion.fb_pixel_purchase"),
         ("value", JsonV.str "3")] "actions" = .ok row2 →
      objGet row2 "action_type" =
        some (.str (normalizedActionType "offsite_conversion.fb_pixel_purchase"))) ∧
    objGet (populateActionRow ⟨"ads", none, ⟨none, none, some "action_breakdowns=action_type"⟩⟩
        [("ex_account_id", JsonV.str "acc")]
        [("action_type", JsonV.str "offsite_conversion.fb_pixel_purchase"),
         ("value", JsonV.str "3")] "actions" [] true) "action_type" =
      some (.str (postSaveRename "offsite_conversion.fb_pixel_purchase")) ∧
    normalizedActionType "offsite_conversion.fb_pixel_purchase" = "fb_pixel_purchase" ∧
    postSaveRename "offsite_conversion.fb_pixel_purchase" =
      "offsite_conversion.fb_pixel_purchase" ∧
    normalizedActionType "post_save" = "post_reaction" ∧
    postSaveRename "post_save" = "post_reaction" :=
  ⟨(C3_action_type_normalization [("ex_account_id", JsonV.str "acc")]
      [("action_type", JsonV.str "offsite_conversion.fb_pixel_purchase"),
       ("value", JsonV.str "3")] "actions" "offsite_conversion.fb_pixel_purchase" rfl
      ⟨"ads", none, ⟨none, none, some "action_breakdowns=action_type"⟩⟩ [] true).1,
   (C3_action_type_normalization [("ex_account_id", JsonV.str "acc")]
      [("action_type", JsonV.str "offsite_conversion.fb_pixel_purchase"),
       ("value", JsonV.str "3")] "actions" "offsite_conversion.fb_pixel_purchase" rfl
      ⟨"ads", none, ⟨none, none, some "action_breakdowns=action_type"⟩⟩ [] true).2,
   rfl, rfl, rfl, rfl⟩

/-! ## Claim C5 -/

/-- C5: Stale-pagination short-circuit. (1) If the `since` query parameter
of the pagination URL parses as a 10-digit Unix timestamp within the last
hour of `now` and no `until` parameter is present, load_page_from_url
returns `{"data": []}` without invoking the HTTP client — for EVERY client
behaviour, and the pre-request decision is `skip`. (2) If `until` parses to
a future timestamp while `since` parses to a timestamp more than one hour
in the past, the `until` parameter is removed and the request proceeds with
the open-ended window. -/
theorem C5_stale_pagination_short_circuit (nowTs : Int) :
    (∀ (client : List (String × String) → Except HttpError JsonV)
        (params : List (String × String)) (s : String),
      getParam params "since" = some s → strAllDigits s = true → s.length = 10 →
      nowTs - 3600 < (strToNat s : Int) → (strToNat s : Int) ≤ nowTs →
      getParam params "until" = none →
      loadPageDecision nowTs params = .skip ∧
      loadPageFromUrl client nowTs params = .ok dataEmpty) ∧
    (∀ (params : List (String × String)) (s u : String),
      getParam params "since" = some s → strAllDigits s = true → s.length = 10 →
      (strToNat s : Int) < nowTs - 3600 →
      getParam params "until" = some u → strAllDigits u = true → u.length = 10 →
      nowTs < (strToNat u : Int) →
      loadPageDecision nowTs params = .request (removeParam params "until")) := by
  constructor
  · intro client params s hsince hdig hlen hlow hhigh huntil
    have hps : parseUnixTs (getParam params "since") = some ((strToNat s : Nat) : Int) := by
      rw [hsince]
      unfold parseUnixTs
      dsimp only
      rw [if_pos (by simp [hdig, hlen])]
    have hpu : parseUnixTs (getParam params "until") = none := by
      rw [huntil]
      rfl
    have hdec : loadPageDecision nowTs params = .skip := by
      unfold loadPageDecision
      rw [hps, hpu]
      dsimp only
      rw [if_pos (by omega)]
    refine ⟨hdec, ?_⟩
    unfold loadPageFromUrl
    rw [hdec]
  · intro params s u hsince hdigs hlens hold huntil hdigu hlenu hfuture
    have hps : parseUnixTs (getParam params "since") = some ((strToNat s : Nat) : Int) := by
      rw [hsince]
      unfold parseUnixTs
      dsimp only
      rw [if_pos (by simp [hdigs, hlens])]
    have hpu : parseUnixTs (getParam params "until") = some ((strToNat u : Nat) : Int) := by
      rw [huntil]
      unfold parseUnixTs
      dsimp only
      rw [if_pos (by simp [hdigu, hlenu])]
    unfold loadPageDecision
    rw [hps, hpu]
    dsimp only
    rw [if_pos (by omega), if_neg (by omega), if_neg (by omega)]

/-- Witness for C5 at a concrete pagination parameter set: since ten
seconds before `now`, no until (part 1); and since one day in the past with
until one hour in the future (part 2). -/
theorem C5_witness :
    (loadPageDecision 1700000000 [("since", "1699999990")] = .skip ∧
      loadPageFromUrl (fun _ => .error ⟨none, "client should not be called"⟩) 1700000000
        [("since", "1699999990")] = .ok dataEmpty) ∧
    loadPageDecision 1700000000 [("since", "1699900000"), ("until", "1700003600")] =
      .request (removeParam [("since", "1699900000"), ("until", "1700003600")] "until") :=
  ⟨(C5_stale_pagination_short_circuit 1700000000).1
      (fun _ => .error ⟨none, "client should not be called"⟩)
      [("since", "1699999990")] "1699999990" rfl (by decide) (by decide)
      (by decide) (by decide) rfl,
   (C5_stale_pagination_short_circuit 1700000000).2
      [("since", "1699900000"), ("until", "1700003600")] "1699900000" "1700003600"
      rfl (by decide) (by decide) (by decide) rfl (by decide) (by decide) (by decide)⟩

/-! ## Claim C6 -/

/-- C6: Recoverable-error mapping. An HTTP failure during a regular page
load whose body text contains "media posted before business account
conversion" (in particular an HTTP 400), or whose parsed JSON error carries
code 100 / subcode 2108006, is recoverable and makes the load return
`{"data": []}` instead of raising; any recoverable failure does; and every
non-recoverable HTTP failure propagates to the caller. -/
theorem C6_recoverable_error_mapping :
    (∀ (e : HttpError) (r : HttpResponse), e.response = some r → r.status = 400 →
      strContains (pyLower r.text) "media posted before business account conversion" = true →
      (isRecoverableError e).1 = true ∧ loadRegularPage (.error e) = .ok dataEmpty) ∧
    (∀ (e : HttpError) (r : HttpResponse) (jfs efs : List (String × JsonV)),
      e.response = some r → r.jsonBody = some (.obj jfs) →
      objGet jfs "error" = some (.obj efs) →
      objGet efs "code" = some (.num 100) →
      objGet efs "error_subcode" = some (.num 2108006) →
      (isRecoverableError e).1 = true ∧ loadRegularPage (.error e) = .ok dataEmpty) ∧
    (∀ e : HttpError, (isRecoverableError e).1 = true →
      loadRegularPage (.error e) = .ok dataEmpty) ∧
    (∀ e : HttpError, (isRecoverableError e).1 = false →
      loadRegularPage (.error e) = .error e) := by
  have hload : ∀ e : HttpError, (isRecoverableError e).1 = true →
      loadRegularPage (.error e) = .ok dataEmpty := by
    intro e h
    unfold loadRegularPage
    dsimp only
    rw [if_pos h]
  refine ⟨?_, ?_, hload, ?_⟩
  · intro e r hresp hstatus htext
    have hbc : isBusinessConversionError e = true := by
      unfold isBusinessConversionError checkErrorMatches
      simp [hresp, htext]
    have hrec : (isRecoverableError e).1 = true := by
      unfold isRecoverableError
      rw [if_pos hbc]
    exact ⟨hrec, hload e hrec⟩
  · intro e r jfs efs hresp hbody herror hcode hsub
    have hbc : isBusinessConversionError e = true := by
      unfold isBusinessConversionError checkErrorMatches structuredMatch
      simp [hresp, hbody, herror, hcode, hsub, jsonEqNum,
        BUSINESS_CONVERSION_ERROR_CODE, BUSINESS_CONVERSION_ERROR_SUBCODE]
    have hrec : (isRecoverableError e).1 = true := by
      unfold isRecoverableError
      rw [if_pos hbc]
    exact ⟨hrec, hload e hrec⟩
  · intro e h
    unfold loadRegularPage
    dsimp only
    rw [h]
    simp

/-- Witness for C6 at concrete HTTP errors: a 400 with the phrase in its
body, a structured code/subcode match, and a non-recoverable error. -/
theorem C6_witness :
    ((isRecoverableError ⟨some ⟨400,
        "HTTP 400: Media posted before business account conversion", none⟩, "err"⟩).1 = true ∧
      loadRegularPage (.error ⟨some ⟨400,
        "HTTP 400: Media posted before business account conversion", none⟩, "err"⟩) =
        .ok dataEmpty) ∧
    ((isRecoverableError ⟨some ⟨400, "",
        some (.obj [("error", .obj [("code", .num 100),
          ("error_subcode", .num 2108006)])])⟩, "err"⟩).1 = true ∧
      loadRegularPage (.error ⟨some ⟨400, "",
        some (.obj [("error", .obj [("code", .num 100),
          ("error_subcode", .num 2108006)])])⟩, "err"⟩) = .ok dataEmpty) ∧
    loadRegularPage (.error ⟨none, "HTTP 500: internal error"⟩) =
      .error ⟨none, "HTTP 500: internal error"⟩ :=
  ⟨C6_recoverable_error_mapping.1 _ _ rfl rfl (by decide),
   C6_recoverable_error_mapping.2.1 _ _ _ _ rfl rfl rfl rfl rfl,
   C6_recoverable_error_mapping.2.2.2 _ rfl⟩

/-! ## Claim C7 -/

theorem pollLoop_sleeps (responses : Nat → Except String JsonV) :
    ∀ (k i attempt : Nat) (fin : Bool) (st : JsonV) (sl : List Nat),
      60 - attempt ≤ k →
      ∃ extra, (pollLoop responses i attempt fin st sl).sleeps = sl ++ extra ∧
        extra.length ≤ 60 - attempt ∧ ∀ x ∈ extra, x = 5 := by
  intro k
  induction k with
  | zero =>
      intro i attempt fin st sl hk
      have h60 : ¬(attempt < 60) := by omega
      rw [pollLoop, if_neg (by simp [decide_eq_false h60])]
      refine ⟨[], ?_, by simp, by simp⟩
      split <;> simp [LoopOut.sleeps]
  | succ k ih =>
      intro i attempt fin st sl hk
      by_cases hguard :
          ((!fin || !(jsonEqStr st "Job Completed")) && decide (attempt < 60)) = true
      · have hlt : attempt < 60 := by
          have h2 := hguard
          simp only [Bool.and_eq_true, decide_eq_true_eq] at h2
          exact h2.2
        rw [pollLoop, if_pos hguard]
        cases hresp : responses i with
        | error m =>
            exact ⟨[], by simp [LoopOut.sleeps], by simp, by simp⟩
        | ok resp =>
            dsimp only
            by_cases hfalsy : pyFalsy resp = true
            · rw [if_pos hfalsy]
              exact ⟨[], by simp [LoopOut.sleeps], by simp, by simp⟩
            · rw [if_neg hfalsy]
              cases resp with
              | obj rfs =>
                  dsimp only
                  split
                  · exact ⟨[], by simp [LoopOut.sleeps], by simp, by simp⟩
                  · split
                    · obtain ⟨extra, h1, h2, h3⟩ :=
                        ih (i + 1) (attempt + 1) _ _ (sl ++ [5]) (by omega)
                      refine ⟨5 :: extra, ?_, ?_, ?_⟩
                      · rw [h1, List.append_assoc]
                        rfl
                      · simp only [List.length_cons]
                        omega
                      · intro x hx
                        rcases List.mem_cons.mp hx with rfl | hx2
                        · rfl
                        · exact h3 x hx2
                    · exact ⟨[], by simp [LoopOut.sleeps], by simp, by simp⟩
              | null => exact ⟨[], by simp [LoopOut.sleeps], by simp, by simp⟩
              | bool b => exact ⟨[], by simp [LoopOut.sleeps], by simp, by simp⟩
              | num n => exact ⟨[], by simp [LoopOut.sleeps], by simp, by simp⟩
              | str s2 => exact ⟨[], by simp [LoopOut.sleeps], by simp, by simp⟩
              | arr xs => exact ⟨[], by simp [LoopOut.sleeps], by simp, by simp⟩
      · rw [pollLoop, if_neg hguard]
        refine ⟨[], ?_, by simp, by simp⟩
        split <;> simp [LoopOut.sleeps]

theorem pollLoop_run (responses : Nat → Except String JsonV)
    (rfs : List (String × JsonV))
    (hall : ∀ j, responses j = .ok (.obj rfs))
    (hnf : pyFalsy (.obj rfs) = false)
    (hnofail :
      (jsonEqStr ((objGet rfs "async_status").getD (.str "Unknown")) "Job Failed" ||
       jsonEqStr ((objGet rfs "async_status").getD (.str "Unknown")) "Job Skipped") = false)
    (hnosucc :
      (!(jsonEqNum ((objGet rfs "async_percent_completion").getD (.num 0)) 100) ||
       !(jsonEqStr ((objGet rfs "async_status").getD (.str "Unknown")) "Job Completed")) = true) :
    ∀ (k i attempt : Nat) (fin : Bool) (st : JsonV) (sl : List Nat),
      60 - attempt = k →
      (!fin || !(jsonEqStr st "Job Completed")) = true →
      pollLoop responses i attempt fin st sl =
        .timeout (sl ++ List.replicate (60 - attempt) 5) := by
  intro k
  induction k with
  | zero =>
      intro i attempt fin st sl hk hstate
      have h60 : ¬(attempt < 60) := by omega
      rw [pollLoop, if_neg (by simp [decide_eq_false h60]), if_pos hstate, hk]
      simp
  | succ k ih =>
      intro i attempt fin st sl hk hstate
      have hlt : attempt < 60 := by omega
      rw [pollLoop, if_pos (by simp [hstate, hlt]), hall i]
      dsimp only
      rw [if_neg (by simp [hnf])]
      rw [if_neg (by simp [hnofail]), if_pos hnosucc]
      rw [ih (i + 1) (attempt + 1) _ _ _ (by omega) hnosucc]
      have hrep : 60 - attempt = (60 - (attempt + 1)) + 1 := by omega
      rw [hrep, List.replicate_succ, List.append_assoc]
      rfl

theorem pollLoop_completed (responses : Nat → Except String JsonV) :
    ∀ (k i attempt : Nat) (fin : Bool) (st : JsonV) (sl sl2 : List Nat),
      60 - attempt ≤ k →
      pollLoop responses i attempt fin st sl = .completed sl2 →
      (fin = true ∧ jsonEqStr st "Job Completed" = true) ∨
      ∃ j r, responses j = .ok r ∧ successResp r = true := by
  intro k
  induction k with
  | zero =>
      intro i attempt fin st sl sl2 hk hout
      have h60 : ¬(attempt < 60) := by omega
      rw [pollLoop, if_neg (by simp [decide_eq_false h60])] at hout
      split at hout
      · cases hout
      · rename_i hstate
        left
        simpa using hstate
  | succ k ih =>
      intro i attempt fin st sl sl2 hk hout
      by_cases hguard :
          ((!fin || !(jsonEqStr st "Job Completed")) && decide (attempt < 60)) = true
      · have hlt : attempt < 60 := by
          have h2 := hguard
          simp only [Bool.and_eq_true, decide_eq_true_eq] at h2
          exact h2.2
        rw [pollLoop, if_pos hguard] at hout
        cases hresp : responses i with
        | error m => rw [hresp] at hout; cases hout
        | ok resp =>
            rw [hresp] at hout
            dsimp only at hout
            by_cases hfalsy : pyFalsy resp = true
            · rw [if_pos hfalsy] at hout
              cases hout
            · rw [if_neg hfalsy] at hout
              cases resp with
              | obj rfs =>
                  dsimp only at hout
                  split at hout
                  · cases hout
                  · split at hout
                    · rcases ih (i + 1) (attempt + 1)
                          (jsonEqNum ((objGet rfs "async_percent_completion").getD (.num 0)) 100)
                          ((objGet rfs "async_status").getD (.str "Unknown"))
                          (sl ++ [5]) sl2 (by omega) hout with ⟨hfin2, hcomp2⟩ | hex
                      · right
                        refine ⟨i, .obj rfs, hresp, ?_⟩
                        unfold successResp
                        simp [hfin2, hcomp2]
                      · exact Or.inr hex
                    · right
                      refine ⟨i, .obj rfs, hresp, ?_⟩
                      rename_i hfail hsucc
                      unfold successResp
                      simpa using hsucc
              | null => cases hout
              | bool b => cases hout
              | num n => cases hout
              | str s2 => cases hout
              | arr xs => cases hout
      · rw [pollLoop, if_neg hguard] at hout
        split at hout
        · cases hout
        · rename_i hstate
          left
          simpa using hstate

theorem pollLoop_first_success (responses : Nat → Except String JsonV)
    (rfs : List (String × JsonV))
    (hresp : responses 0 = .ok (.obj rfs)) (hsucc : successResp (.obj rfs) = true) :
    pollLoop responses 0 0 false (.str "") [] = .completed [] := by
  have hnf : pyFalsy (.obj rfs) = false := by
    cases rfs with
    | nil => exact absurd hsucc (by decide)
    | cons a l => rfl
  obtain ⟨hfin, hcomp⟩ :
      jsonEqNum ((objGet rfs "async_percent_completion").getD (.num 0)) 100 = true ∧
      jsonEqStr ((objGet rfs "async_status").getD (.str "Unknown")) "Job Completed" = true := by
    unfold successResp at hsucc
    simpa using hsucc
  rw [pollLoop, if_pos (by decide), hresp]
  dsimp only
  rw [if_neg (by simp [hnf])]
  rw [if_neg ?hfail, if_neg ?hrun]
  case hfail =>
    have hst : (objGet rfs "async_status").getD (.str "Unknown") = .str "Job Completed" := by
      cases hv : (objGet rfs "async_status").getD (.str "Unknown") with
      | str a =>
          rw [hv] at hcomp
          simp only [jsonEqStr, beq_iff_eq] at hcomp
          rw [hcomp]
      | null => rw [hv] at hcomp; cases hcomp
      | bool b => rw [hv] at hcomp; cases hcomp
      | num n => rw [hv] at hcomp; cases hcomp
      | arr xs => rw [hv] at hcomp; cases hcomp
      | obj fs2 => rw [hv] at hcomp; cases hcomp
    rw [hst]
    decide
  case hrun =>
    simp [hfin, hcomp]

theorem pollLoop_first_failed (responses : Nat → Except String JsonV)
    (rfs : List (String × JsonV))
    (hresp : responses 0 = .ok (.obj rfs))
    (hfail :
      (jsonEqStr ((objGet rfs "async_status").getD (.str "Unknown")) "Job Failed" ||
       jsonEqStr ((objGet rfs "async_status").getD (.str "Unknown")) "Job Skipped") = true) :
    pollLoop responses 0 0 false (.str "") [] =
      .jobFailed ((objGet rfs "async_status").getD (.str "Unknown")) [] := by
  have hnf : pyFalsy (.obj rfs) = false := by
    cases rfs with
    | nil => exact absurd hfail (by decide)
    | cons a l => rfl
  rw [pollLoop, if_pos (by decide), hresp]
  dsimp only
  rw [if_neg (by simp [hnf])]
  rw [if_pos hfail]

/-- C7: Async-job polling semantics. (1) Every sleep the loop performs is
exactly 5 seconds and there are at most 60 of them (the attempt ceiling).
(2) A status response reporting percent completion 100 and status
"Job Completed" makes the poll succeed immediately and return the final
`{job_id}/insights` fetch, degrading to `{"data": []}` when that fetch
fails or is falsy. (3) A status of "Job Failed" or "Job Skipped" raises
immediately (no sleeps). (4) When every status response is the same
well-formed, non-terminal report, the poll sleeps 5 seconds 60 times and
then raises the timeout error. (5) The poll succeeds ONLY when some status
response reported percent 100 and status "Job Completed". -/
theorem C7_poll_async_job :
    (∀ (responses : Nat → Except String JsonV) (finalFetch : Except String JsonV),
      ((pollAsyncJob responses finalFetch).sleepLog).length ≤ 60 ∧
      ∀ x ∈ (pollAsyncJob responses finalFetch).sleepLog, x = 5) ∧
    (∀ (responses : Nat → Except String JsonV) (finalFetch : Except String JsonV)
        (rfs : List (String × JsonV)),
      responses 0 = .ok (.obj rfs) → successResp (.obj rfs) = true →
      pollAsyncJob responses finalFetch =
        .success (match finalFetch with
                  | .ok r => if pyTruthy r then r else dataEmpty
                  | .error _ => dataEmpty) []) ∧
    (∀ (responses : Nat → Except String JsonV) (finalFetch : Except String JsonV)
        (rfs : List (String × JsonV)),
      responses 0 = .ok (.obj rfs) →
      (jsonEqStr ((objGet rfs "async_status").getD (.str "Unknown")) "Job Failed" ||
       jsonEqStr ((objGet rfs "async_status").getD (.str "Unknown")) "Job Skipped") = true →
      pollAsyncJob responses finalFetch =
        .raisedJobFailed ((objGet rfs "async_status").getD (.str "Unknown")) []) ∧
    (∀ (responses : Nat → Except String JsonV) (finalFetch : Except String JsonV)
        (rfs : List (String × JsonV)),
      (∀ j, responses j = .ok (.obj rfs)) →
      pyFalsy (.obj rfs) = false →
      (jsonEqStr ((objGet rfs "async_status").getD (.str "Unknown")) "Job Failed" ||
       jsonEqStr ((objGet rfs "async_status").getD (.str "Unknown")) "Job Skipped") = false →
      (!(jsonEqNum ((objGet rfs "async_percent_completion").getD (.num 0)) 100) ||
       !(jsonEqStr ((objGet rfs "async_status").getD (.str "Unknown")) "Job Completed")) = true →
      pollAsyncJob responses finalFetch = .raisedTimeout (List.replicate 60 5)) ∧
    (∀ (responses : Nat → Except String JsonV) (finalFetch : Except String JsonV)
        (d : JsonV) (sl : List Nat),
      pollAsyncJob responses finalFetch = .success d sl →
      ∃ j r, responses j = .ok r ∧ successResp r = true) := by
  refine ⟨?_, ?_, ?_, ?_, ?_⟩
  · intro responses finalFetch
    obtain ⟨extra, h1, h2, h3⟩ :=
      pollLoop_sleeps responses 60 0 0 false (.str "") [] (by omega)
    have hlog : (pollAsyncJob responses finalFetch).sleepLog =
        (pollLoop responses 0 0 false (.str "") []).sleeps := by
      unfold pollAsyncJob
      cases hout : pollLoop responses 0 0 false (.str "") [] with
      | completed sleeps =>
          cases finalFetch <;> rfl
      | jobFailed status sleeps => rfl
      | timeout sleeps => rfl
      | errored m sleeps => rfl
    rw [hlog, h1]
    simp only [List.nil_append]
    exact ⟨by omega, h3⟩
  · intro responses finalFetch rfs hresp hsucc
    unfold pollAsyncJob
    rw [pollLoop_first_success responses rfs hresp hsucc]
    cases finalFetch <;> rfl
  · intro responses finalFetch rfs hresp hfail
    unfold pollAsyncJob
    rw [pollLoop_first_failed responses rfs hresp hfail]
  · intro responses finalFetch rfs hall hnf hnofail hnosucc
    unfold pollAsyncJob
    rw [pollLoop_run responses rfs hall hnf hnofail hnosucc 60 0 0 false (.str "") []
      (by omega) (by decide)]
    rfl
  · intro responses finalFetch d sl h
    unfold pollAsyncJob at h
    cases hout : pollLoop responses 0 0 false (.str "") [] with
    | completed sleeps =>
        rcases pollLoop_completed responses 60 0 0 false (.str "") [] sleeps (by omega) hout with
          ⟨hfin, _⟩ | hex
        · cases hfin
        · exact hex
    | jobFailed status sleeps => rw [hout] at h; cases h
    | timeout sleeps => rw [hout] at h; cases h
    | errored m sleeps => rw [hout] at h; cases h

/-- Witness for C7 at concrete response streams: an immediately completed
job, an immediately failed job, and a job that is forever 50% done. -/
theorem C7_witness :
    (((pollAsyncJob (fun _ => .ok (.obj [("async_percent_completion", .num 50),
        ("async_status", .str "Job Running")])) (.ok (.obj [("x", .num 1)]))).sleepLog).length ≤ 60 ∧
      ∀ x ∈ (pollAsyncJob (fun _ => .ok (.obj [("async_percent_completion", .num 50),
        ("async_status", .str "Job Running")])) (.ok (.obj [("x", .num 1)]))).sleepLog, x = 5) ∧
    pollAsyncJob (fun _ => .ok (.obj [("async_percent_completion", .num 100),
        ("async_status", .str "Job Completed")])) (.ok (.obj [("x", .num 1)])) =
      .success (.obj [("x", .num 1)]) [] ∧
    pollAsyncJob (fun _ => .ok (.obj [("async_percent_completion", .num 100),
        ("async_status", .str "Job Completed")])) (.error "final fetch failed") =
      .success dataEmpty [] ∧
    pollAsyncJob (fun _ => .ok (.obj [("async_percent_completion", .num 50),
        ("async_status", .str "Job Failed")])) (.ok (.obj [("x", .num 1)])) =
      .raisedJobFailed (.str "Job Failed") [] ∧
    pollAsyncJob (fun _ => .ok (.obj [("async_percent_completion", .num 50),
        ("async_status", .str "Job Running")])) (.ok (.obj [("x", .num 1)])) =
      .raisedTimeout (List.replicate 60 5) :=
  ⟨C7_poll_async_job.1 _ _,
   C7_poll_async_job.2.1 _ _ [("async_percent_completion", JsonV.num 100),
      ("async_status", JsonV.str "Job Completed")] rfl (by decide),
   C7_poll_async_job.2.1 _ _ [("async_percent_completion", JsonV.num 100),
      ("async_status", JsonV.str "Job Completed")] rfl (by decide),
   C7_poll_async_job.2.2.1 _ _ [("async_percent_completion", JsonV.num 50),
      ("async_status", JsonV.str "Job Failed")] rfl (by decide),
   C7_poll_async_job.2.2.2.1 _ _ [("async_percent_completion", JsonV.num 50),
      ("async_status", JsonV.str "Job Running")] (fun _ => rfl) (by decide) (by decide) (by decide)⟩

end MetaSpec

